import Mathlib

set_option autoImplicit false

/-
Verification of the logistics-center integration layer of np-backend.
The Python implementation (logistics/providers/orian.py, logistics/tasks.py,
logistics/models.py, logistics/signals.py) is exercised by
src/logistics/tests/test_orian.py; the definitions below embed that layer:
the id codec, the outbound sync client and its always-200 response envelope,
the inbound message dispatcher, the receipt reconciliation handler and the
temporal-merge state machine for order status updates.
-/

namespace NpBackend

/- Section: id codec -/

/-- Decimal digit to its character, for digits 0..9. -/
def digitChar (d : Nat) : Char :=
  Char.ofNat (48 + d % 10)

/-- Character back to its decimal digit value; none for a non-digit. -/
def charDigitVal (c : Char) : Option Nat :=
  if 48 <= c.toNat ∧ c.toNat <= 57 then some (c.toNat - 48) else none

/-- Decimal digit characters of a positive number, most significant digit
first, by fuel-bounded division; fuel at least the number suffices. -/
def natDigitCharsAux : Nat → Nat → List Char
  | 0, _ => []
  | fuel + 1, n =>
    if n = 0 then []
    else natDigitCharsAux fuel (n / 10) ++ [digitChar (n % 10)]

/-- Decimal digit characters of a natural number, most significant digit
first. -/
def natDigitChars (n : Nat) : List Char :=
  if n = 0 then ['0'] else natDigitCharsAux n n

/-- Parse digit characters most significant first onto an accumulator; none on
any non-digit character. -/
def parseDigitsVal : List Char → Nat → Option Nat
  | [], a => some a
  | c :: cs, a =>
    match charDigitVal c with
    | none => none
    | some d => parseDigitsVal cs (10 * a + d)

/-- Parse a non-empty, all-digit character list back to a natural number. -/
def parseDigitChars (cs : List Char) : Option Nat :=
  if cs.isEmpty then none else parseDigitsVal cs 0

/-- Modelled from the spec: the Id Codec (spec 4.1). The canonical encoding of a
platform numeric primary key as an external-system string id; the concrete
implementation is not under src (only the tests that exercise it are), so the
encoding is modelled as a tagged decimal rendering distinct from the legacy
scheme below. -/
def encode (i : Nat) : String :=
  String.mk ('O' :: 'R' :: 'D' :: natDigitChars i)

/-- Modelled from the spec: the deprecated legacy encoding of a platform id
(`_platform_id_to_orian_id` in logistics/providers/orian.py, absent from src),
still accepted on input and still used for REFERENCEORD values. Modelled as a
differently tagged decimal rendering. -/
def _platform_id_to_orian_id (i : Nat) : String :=
  String.mk ('N' :: 'K' :: 'S' :: natDigitChars i)

/-- Modelled from the spec: decoding of an external id accepting both the
canonical and the deprecated legacy scheme (spec 4.1); fails (none, the
MalformedId outcome) when the string matches neither scheme. -/
def decode (s : String) : Option Nat :=
  match s.data with
  | c1 :: c2 :: c3 :: rest =>
    if c1 = 'O' ∧ c2 = 'R' ∧ c3 = 'D' then parseDigitChars rest
    else if c1 = 'N' ∧ c2 = 'K' ∧ c3 = 'S' then parseDigitChars rest
    else none
  | _ => none

/- Section: response envelope and the outbound sync client -/

/-- The external system's response: always HTTP 200, with success indicated by
the body's status field and a null error code. -/
structure OrianResponse where
  httpStatus : Nat
  status : Option String
  errorCode : Option String
  deriving DecidableEq, Repr

/-- The success token the external system puts in the status field. -/
def successToken : String := "SUCCSESS"

/-- Modelled from the spec: business success of an always-200 response is an
explicit status field equal to the success token together with a null error
code (spec 4.2, 6); the transport status plays no part. -/
def businessSuccess (r : OrianResponse) : Bool :=
  r.status == some successToken && r.errorCode == none

structure Supplier where
  pk : Nat
  name : String
  deriving DecidableEq, Repr

structure Product where
  pk : Nat
  sku : String
  name : String
  cost_price : Nat
  sale_price : Nat
  deriving DecidableEq, Repr

inductive POStatus
  | PENDING
  | APPROVED
  | SENT_TO_SUPPLIER
  | CANCELLED
  deriving DecidableEq, Repr

/-- One line of a purchase order (a PurchaseOrderProduct row). -/
structure PurchaseOrderProduct where
  purchaseOrderPk : Nat
  productSku : String
  quantity_ordered : Nat
  deriving DecidableEq, Repr

structure PurchaseOrder where
  pk : Nat
  supplierPk : Nat
  status : POStatus
  lines : List PurchaseOrderProduct
  egcContext : Option Nat
  sent_to_logistics_center_at : Option Nat
  deriving DecidableEq, Repr

inductive DeliveryLocation
  | ToHome
  | ToOffice
  deriving DecidableEq, Repr

structure Organization where
  manager_full_name : String
  manager_phone_number : String
  manager_email : String
  deriving DecidableEq, Repr

structure EmployeeGroup where
  delivery_city : String
  delivery_street : String
  delivery_street_number : String
  delivery_apartment_number : String
  delivery_location : DeliveryLocation
  deriving DecidableEq, Repr

structure Employee where
  full_name : String
  phone_number : String
  email : String
  deriving DecidableEq, Repr

inductive OrderStatus
  | PENDING
  | SENT_TO_LOGISTIC_CENTER
  | CANCELLED
  deriving DecidableEq, Repr

structure OrderLine where
  sku : String
  quantity : Nat
  deriving DecidableEq, Repr

/-- A customer order together with the recipient, group and organization rows
it references. -/
structure Order where
  pk : Nat
  status : OrderStatus
  full_name : String
  phone_number : String
  additional_phone_number : String
  delivery_city : String
  delivery_street : String
  delivery_street_number : String
  delivery_apartment_number : String
  delivery_additional_details : String
  employee : Employee
  employeeGroup : EmployeeGroup
  organization : Organization
  egcPk : Nat
  lines : List OrderLine
  logistics_center_status : Option String
  logistics_center_status_ts : Option Nat
  deriving DecidableEq, Repr

/-- Modelled from the spec: the single employee-group-campaign shipment context
an order is tied to (spec 4.2). An order is tied to such a context exactly when
its recipient's group delivery policy is to-office (the whole group-campaign
ships as one reference order); home-delivery orders ship individually and are
tied to none. -/
def Order.egcContext (o : Order) : Option Nat :=
  if o.employeeGroup.delivery_location = DeliveryLocation.ToOffice then some o.egcPk
  else none

/-- Modelled from the spec: services.address.format_street_line (absent from
src), a pure formatting of street, number and apartment into one line. -/
def format_street_line (street number apartment : String) : String :=
  street ++ " " ++ number ++ "/" ++ apartment

/-- The CONTACT block of an outbound payload (wire fields CONTACT1NAME and so
on). -/
structure ContactData where
  street1 : String
  city : String
  contact1Name : String
  contact2Name : String
  contact1Phone : String
  contact2Phone : String
  contact1Email : String
  contact2Email : String
  deriving DecidableEq, Repr

structure SupplierPayload where
  companyId : String
  companyName : String
  deriving DecidableEq, Repr

structure ProductPayload where
  sku : String
  skuName : String
  price : Nat
  deriving DecidableEq, Repr

structure InboundPayload where
  orderId : String
  referenceOrder : String
  companyId : String
  lines : List (String × Nat)
  deriving DecidableEq, Repr

structure OutboundPayload where
  orderId : String
  referenceOrder : String
  contact : ContactData
  deliveryComments : String
  lines : List (String × Nat)
  deriving DecidableEq, Repr

/-- Modelled from the spec: syncSupplier (add_or_update_supplier, absent from
src). Builds the Company payload and interprets the always-200 response body;
the boolean is the business result returned to the caller without raising
(spec 4.2). -/
def add_or_update_supplier (s : Supplier) (resp : OrianResponse) :
    SupplierPayload × Bool :=
  ({ companyId := _platform_id_to_orian_id s.pk, companyName := s.name },
   businessSuccess resp)

/-- Modelled from the spec: syncProduct (add_or_update_product, absent from
src). -/
def add_or_update_product (p : Product) (resp : OrianResponse) :
    ProductPayload × Bool :=
  ({ sku := p.sku, skuName := p.name, price := p.cost_price },
   businessSuccess resp)

/-- Modelled from the spec: syncInbound (add_or_update_inbound, absent from
src). Enumerates every purchase-order line in persisted order and computes the
reference-order field: empty when the purchase order is tied to no single
employee-group-campaign context, otherwise that context's encoded id
(spec 4.2). -/
def add_or_update_inbound (po : PurchaseOrder) (_asOf : Nat) (resp : OrianResponse) :
    InboundPayload × Bool :=
  ({ orderId := encode po.pk
     referenceOrder :=
       match po.egcContext with
       | none => ""
       | some i => _platform_id_to_orian_id i
     companyId := _platform_id_to_orian_id po.supplierPk
     lines := po.lines.map fun l => (l.productSku, l.quantity_ordered) },
   businessSuccess resp)

/-- Modelled from the spec: the delivery-contact resolution of syncOutbound
(spec 4.2): under a to-office policy the organization manager is the primary
name/phone/email contact and the recipient the secondary; under a to-home
policy the order's own contact fields populate both primary and secondary
name/phone, the primary email is the recipient's account email and the
secondary email is left empty. -/
def buildOutboundContact (o : Order) : ContactData :=
  if o.employeeGroup.delivery_location = DeliveryLocation.ToOffice then
    { street1 := format_street_line o.employeeGroup.delivery_street
        o.employeeGroup.delivery_street_number
        o.employeeGroup.delivery_apartment_number
      city := o.employeeGroup.delivery_city
      contact1Name := o.organization.manager_full_name
      contact2Name := o.employee.full_name
      contact1Phone := o.organization.manager_phone_number
      contact2Phone := o.employee.phone_number
      contact1Email := o.organization.manager_email
      contact2Email := o.employee.email }
  else
    { street1 := format_street_line o.delivery_street o.delivery_street_number
        o.delivery_apartment_number
      city := o.delivery_city
      contact1Name := o.full_name
      contact2Name := o.full_name
      contact1Phone := o.phone_number
      contact2Phone := o.additional_phone_number
      contact1Email := o.employee.email
      contact2Email := "" }

/-- Modelled from the spec: syncOutbound (add_or_update_outbound, absent from
src). Builds the Outbound payload (reference order, resolved delivery contact,
delivery comments, one line per order line in persisted order) and interprets
the always-200 response body. -/
def add_or_update_outbound (o : Order) (_asOf : Nat) (resp : OrianResponse) :
    OutboundPayload × Bool :=
  ({ orderId := encode o.pk
     referenceOrder :=
       match o.egcContext with
       | none => ""
       | some i => _platform_id_to_orian_id i
     contact := buildOutboundContact o
     deliveryComments :=
       if o.employeeGroup.delivery_location = DeliveryLocation.ToOffice then ""
       else o.delivery_additional_details
     lines := o.lines.map fun l => (l.sku, l.quantity) },
   businessSuccess resp)

/- Section: inbound message processing state -/

/-- The error taxonomy of the processing layer (spec 7). -/
inductive ProcError
  | malformedMessage
  | malformedId
  | referenceNotFound
  | businessFailure
  deriving DecidableEq, Repr

/-- An immutable order-status event record (a LogisticsCenterOrderStatus row). -/
structure StatusEvent where
  orderPk : Nat
  status : String
  statusTs : Nat
  deriving DecidableEq, Repr

/-- An inbound receipt header (a LogisticsCenterInboundReceipt row), keyed by
the external receipt code. -/
structure InboundReceipt where
  receipt_code : String
  receipt_start_date : Nat
  receipt_close_date : Nat
  deriving DecidableEq, Repr

/-- An inbound receipt line (a LogisticsCenterInboundReceiptLine row), keyed by
receipt code and reported line number. -/
structure InboundReceiptLine where
  receiptCode : String
  receipt_line : Nat
  purchaseOrderPk : Nat
  sku : String
  quantity_received : Nat
  messageRef : Nat
  deriving DecidableEq, Repr

/-- The persisted state the inbound processor reads and writes. -/
structure Db where
  purchaseOrderProducts : List PurchaseOrderProduct
  receipts : List InboundReceipt
  receiptLines : List InboundReceiptLine
  orders : List Order
  statusEvents : List StatusEvent
  deriving Repr

/-- Typed ORDER_STATUS_CHANGE message data (wire fields ORDERID, TOSTATUS,
STATUSDATE). -/
structure OrderStatusChangeData where
  orderId : String
  toStatus : String
  statusDate : Nat
  deriving DecidableEq, Repr

/-- Typed SHIP_ORDER message data (wire fields ORDERID, STATUS, SHIPPEDDATE). -/
structure ShipOrderData where
  orderId : String
  status : String
  shippedDate : Nat
  deriving DecidableEq, Repr

/-- Typed INBOUND_RECEIPT line data (wire fields RECEIPTLINE, SKU, ORDERID,
QTYRECEIVED). -/
structure ReceiptLineData where
  receiptLine : Nat
  sku : String
  orderId : String
  qtyReceived : Nat
  deriving DecidableEq, Repr

/-- Typed INBOUND_RECEIPT message data (wire fields RECEIPT, STARTRECEIPTDATE,
CLOSERECEIPTDATE, LINES.LINE). -/
structure ReceiptData where
  receipt : String
  startDate : Nat
  closeDate : Nat
  lines : List ReceiptLineData
  deriving DecidableEq, Repr

/-- Resolve an external order id to a customer order strictly through the id
codec. -/
def resolveOrder (orders : List Order) (s : String) : Option Order :=
  (decode s).bind fun i => orders.find? fun o => o.pk == i

/- Section: temporal merge state machine -/

/-- The per-entity view of the temporal merge state: the entity's event log and
its visible current status with the timestamp of the last accepted update. -/
structure EntityStatus where
  events : List (String × Nat)
  current : Option String
  currentTs : Option Nat
  deriving DecidableEq, Repr

/-- The event pairs recorded for one entity. -/
def entityEventsFor (evs : List StatusEvent) (pk : Nat) : List (String × Nat) :=
  (evs.filter fun e => e.orderPk == pk).map fun e => (e.status, e.statusTs)

/-- The visible current status pair of the order with the given pk. -/
def currentOf (db : Db) (pk : Nat) : Option String × Option Nat :=
  match db.orders.find? fun o => o.pk == pk with
  | none => (none, none)
  | some o => (o.logistics_center_status, o.logistics_center_status_ts)

/-- Modelled from the spec: the temporal merge rule (spec 4.5) applied to a
resolved order. Appends a status event unless an identical (status, timestamp)
pair already exists for this order, and moves the order's visible current
status only when no update was accepted before or the new timestamp is
strictly greater than the last accepted one. -/
def applyOrderStatus (db : Db) (o : Order) (s : String) (t : Nat) : Db :=
  let ev : StatusEvent := { orderPk := o.pk, status := s, statusTs := t }
  let events' := if ev ∈ db.statusEvents then db.statusEvents
                 else db.statusEvents ++ [ev]
  let accept := match o.logistics_center_status_ts with
                | none => true
                | some t0 => decide (t0 < t)
  let orders' := db.orders.map fun o2 =>
    if o2.pk == o.pk then
      (if accept then
        { o2 with logistics_center_status := some s
                  logistics_center_status_ts := some t }
       else o2)
    else o2
  { db with orders := orders', statusEvents := events' }

/-- Modelled from the spec: the ORDER_STATUS_CHANGE handler (spec 4.3, 4.5):
resolve the order strictly by decoded id (lookup failure is the hard
ReferenceNotFound error) and apply the temporal merge rule with the message's
TOSTATUS and STATUSDATE. -/
def handle_order_status_change (db : Db) (m : OrderStatusChangeData) :
    Db × Option ProcError :=
  match decode m.orderId with
  | none => (db, some ProcError.malformedId)
  | some i =>
    match db.orders.find? fun o => o.pk == i with
    | none => (db, some ProcError.referenceNotFound)
    | some o => (applyOrderStatus db o m.toStatus m.statusDate, none)

/-- Modelled from the spec: the SHIP_ORDER handler (spec 4.3, 4.5): same
resolution and temporal merge rule, with the status label taken from the
message's own STATUS field and the timestamp from SHIPPEDDATE. -/
def handle_ship_order (db : Db) (m : ShipOrderData) : Db × Option ProcError :=
  match decode m.orderId with
  | none => (db, some ProcError.malformedId)
  | some i =>
    match db.orders.find? fun o => o.pk == i with
    | none => (db, some ProcError.referenceNotFound)
    | some o => (applyOrderStatus db o m.status m.shippedDate, none)

/- Section: receipt handler -/

/-- Modelled from the spec: upsert of the receipt header by receipt code
(spec 4.4): create when absent, otherwise overwrite the start and close dates
with the new message's values. -/
def upsertReceipt (rs : List InboundReceipt) (code : String) (sd cd : Nat) :
    List InboundReceipt :=
  if rs.any fun r => r.receipt_code == code then
    rs.map fun r =>
      if r.receipt_code == code then
        { r with receipt_start_date := sd, receipt_close_date := cd }
      else r
  else rs ++ [{ receipt_code := code, receipt_start_date := sd,
                receipt_close_date := cd }]

/-- Modelled from the spec: upsert of a receipt line by (receipt code, line
number) (spec 4.4): overwrite any prior value for that exact key, otherwise
append. -/
def upsertReceiptLine (ls : List InboundReceiptLine) (code : String) (ln : Nat)
    (v : InboundReceiptLine) : List InboundReceiptLine :=
  if ls.any fun l => l.receiptCode == code && l.receipt_line == ln then
    ls.map fun l =>
      if l.receiptCode == code && l.receipt_line == ln then v else l
  else ls ++ [v]

/-- Modelled from the spec: sequential processing of a receipt message's lines
(spec 4.4). Each line resolves its purchase-order line by decoded order id and
SKU; a decoding failure or a failed lookup is a hard error that aborts the
message before any further line is written, while already-written lines of the
same message remain. -/
def processReceiptLines (msgRef : Nat) (code : String)
    (pos : List PurchaseOrderProduct) :
    List ReceiptLineData → List InboundReceiptLine →
    List InboundReceiptLine × Option ProcError
  | [], acc => (acc, none)
  | l :: rest, acc =>
    match decode l.orderId with
    | none => (acc, some ProcError.malformedId)
    | some i =>
      match pos.find? fun p => p.purchaseOrderPk == i && p.productSku == l.sku with
      | none => (acc, some ProcError.referenceNotFound)
      | some _ =>
        processReceiptLines msgRef code pos rest
          (upsertReceiptLine acc code l.receiptLine
            { receiptCode := code, receipt_line := l.receiptLine,
              purchaseOrderPk := i, sku := l.sku,
              quantity_received := l.qtyReceived, messageRef := msgRef })

/-- Modelled from the spec: the receipt handler (spec 4.4): upsert the receipt
header by code, then process the lines sequentially; a line error propagates
after the header and the already-written lines have been persisted. -/
def process_inbound_receipt (db : Db) (msgRef : Nat) (m : ReceiptData) :
    Db × Option ProcError :=
  let receipts' := upsertReceipt db.receipts m.receipt m.startDate m.closeDate
  let r := processReceiptLines msgRef m.receipt db.purchaseOrderProducts
    m.lines db.receiptLines
  ({ db with receipts := receipts', receiptLines := r.1 }, r.2)

/- Section: envelope parsing and dispatch -/

/-- A JSON-like value, enough to model the DATACOLLECTION.DATA envelopes the
external system delivers. Dates are modelled as already-normalized numeric
timestamps. -/
inductive Json
  | null
  | str (s : String)
  | num (n : Nat)
  | obj (fields : List (String × Json))
  | arr (elems : List Json)
  deriving Repr

/-- Object key lookup; none on a missing key or a non-object. -/
def Json.get? : Json → String → Option Json
  | Json.obj fields, k => (fields.find? fun f => f.1 == k).map fun f => f.2
  | _, _ => none

def Json.asString? : Json → Option String
  | Json.str s => some s
  | _ => none

def Json.asNat? : Json → Option Nat
  | Json.num n => some n
  | _ => none

/-- The DATACOLLECTION.DATA envelope body of a raw message. -/
def envelopeData (j : Json) : Option Json :=
  (j.get? "DATACOLLECTION").bind fun dc => dc.get? "DATA"

/-- Modelled from the spec: the single-object-or-array irregularity of received
line data is normalized to one uniform list at the parsing boundary
(spec 4.4, 9). -/
def normalizeLines : Json → List Json
  | Json.arr xs => xs
  | Json.obj fields => [Json.obj fields]
  | _ => []

def parseReceiptLineData (j : Json) : Option ReceiptLineData := do
  let ln ← (← j.get? "RECEIPTLINE").asNat?
  let sku ← (← j.get? "SKU").asString?
  let oid ← (← j.get? "ORDERID").asString?
  let qty ← (← j.get? "QTYRECEIVED").asNat?
  pure { receiptLine := ln, sku := sku, orderId := oid, qtyReceived := qty }

/-- Modelled from the spec: structural decoding of an INBOUND_RECEIPT envelope
(spec 4.3, 6); any missing envelope key fails the decode. -/
def parse_inbound_receipt (j : Json) : Option ReceiptData := do
  let data ← envelopeData j
  let code ← (← data.get? "RECEIPT").asString?
  let sd ← (← data.get? "STARTRECEIPTDATE").asNat?
  let cd ← (← data.get? "CLOSERECEIPTDATE").asNat?
  let linesJ ← data.get? "LINES"
  let lineJ ← linesJ.get? "LINE"
  let lines ← (normalizeLines lineJ).mapM parseReceiptLineData
  pure { receipt := code, startDate := sd, closeDate := cd, lines := lines }

/-- Modelled from the spec: structural decoding of an ORDER_STATUS_CHANGE
envelope (spec 4.3, 6). -/
def parse_order_status_change (j : Json) : Option OrderStatusChangeData := do
  let data ← envelopeData j
  let oid ← (← data.get? "ORDERID").asString?
  let toStatus ← (← data.get? "TOSTATUS").asString?
  let sd ← (← data.get? "STATUSDATE").asNat?
  pure { orderId := oid, toStatus := toStatus, statusDate := sd }

/-- Modelled from the spec: structural decoding of a SHIP_ORDER envelope
(spec 4.3, 6). -/
def parse_ship_order (j : Json) : Option ShipOrderData := do
  let data ← envelopeData j
  let oid ← (← data.get? "ORDERID").asString?
  let st ← (← data.get? "STATUS").asString?
  let sd ← (← data.get? "SHIPPEDDATE").asNat?
  pure { orderId := oid, status := st, shippedDate := sd }

/-- Modelled from the spec: the inbound message processor (spec 4.3,
process_logistics_center_message in logistics/tasks.py, absent from src):
classify the stored raw message by its declared type and route it; an unknown
type or a structurally undecodable envelope fails with MalformedMessage and
persists no derived records. -/
def process_logistics_center_message (db : Db) (msgRef : Nat) (msgType : String)
    (body : Json) : Db × Option ProcError :=
  if msgType == "INBOUND_RECEIPT" then
    match parse_inbound_receipt body with
    | none => (db, some ProcError.malformedMessage)
    | some m => process_inbound_receipt db msgRef m
  else if msgType == "ORDER_STATUS_CHANGE" then
    match parse_order_status_change body with
    | none => (db, some ProcError.malformedMessage)
    | some m => handle_order_status_change db m
  else if msgType == "SHIP_ORDER" then
    match parse_ship_order body with
    | none => (db, some ProcError.malformedMessage)
    | some m => handle_ship_order db m
  else (db, some ProcError.malformedMessage)

/- Section: orchestration tasks -/

/-- One call to an external endpoint, recorded in submission order. -/
inductive ApiCall
  | company (id : String)
  | sku (s : String)
  | inbound (orderId : String)
  | outbound (orderId : String)
  deriving DecidableEq, Repr

/-- The external system's responses per endpoint for one task run. -/
structure OrianEnv where
  companyResp : OrianResponse
  skuResp : String → OrianResponse
  inboundResp : OrianResponse
  outboundResp : OrianResponse

/-- Modelled from the spec: the post-save trigger (logistics/signals.py, absent
from src): saving a purchase order queues the send task exactly when the saved
status is APPROVED; the queued invocation carries the purchase order's pk
(spec 4.2). -/
def purchase_order_post_save (po : PurchaseOrder) : Option Nat :=
  if po.status = POStatus.APPROVED then some po.pk else none

/-- The distinct products referenced by a purchase order's lines. -/
def distinctProductSkus (po : PurchaseOrder) : List String :=
  (po.lines.map fun l => l.productSku).dedup

/-- Modelled from the spec: sequential product syncs; a business failure stops
the sequence at the failing product (spec 4.2). Returns the calls made and
whether every sync succeeded. -/
def syncProducts (env : OrianEnv) : List String → List ApiCall × Bool
  | [] => ([], true)
  | s :: rest =>
    if businessSuccess (env.skuResp s) then
      let r := syncProducts env rest
      (ApiCall.sku s :: r.1, r.2)
    else ([ApiCall.sku s], false)

/-- Modelled from the spec: send_purchase_order_to_logistics_center
(logistics/tasks.py, absent from src): supplier sync, then a product sync per
distinct product on the purchase order's lines, then the inbound sync, in that
order; a business failure at any step aborts the chain before the next step
and surfaces as a hard failure; on full success the
sent_to_logistics_center_at stamp is set once (spec 4.2). -/
def send_purchase_order_to_logistics_center (env : OrianEnv) (po : PurchaseOrder)
    (now : Nat) : PurchaseOrder × List ApiCall × Option ProcError :=
  let companyCall := ApiCall.company (_platform_id_to_orian_id po.supplierPk)
  if businessSuccess env.companyResp then
    let r := syncProducts env (distinctProductSkus po)
    if r.2 then
      if businessSuccess env.inboundResp then
        let po' := if po.sent_to_logistics_center_at = none then
            { po with sent_to_logistics_center_at := some now }
          else po
        (po', companyCall :: r.1 ++ [ApiCall.inbound (encode po.pk)], none)
      else
        (po, companyCall :: r.1 ++ [ApiCall.inbound (encode po.pk)],
         some ProcError.businessFailure)
    else (po, companyCall :: r.1, some ProcError.businessFailure)
  else (po, [companyCall], some ProcError.businessFailure)

/-- Modelled from the spec: send_order_to_logistics_center
(logistics/tasks.py, absent from src): sync the dummy company, then the
outbound; a business failure at either step surfaces as a hard failure and the
order is untouched; on full success the order's platform status becomes
SENT_TO_LOGISTIC_CENTER. -/
def send_order_to_logistics_center (env : OrianEnv) (o : Order) (now : Nat) :
    Order × Option ProcError :=
  if businessSuccess env.companyResp then
    if (add_or_update_outbound o now env.outboundResp).2 then
      ({ o with status := OrderStatus.SENT_TO_LOGISTIC_CENTER }, none)
    else (o, some ProcError.businessFailure)
  else (o, some ProcError.businessFailure)

/- Section: spec-side predicates -/

/-- The temporal merge transition rule exactly as the spec states it
(spec 4.5): the event pair is appended unless already present; the visible
current status moves to the new pair only when no timestamp was accepted
before or the new one is strictly greater; an equal or older timestamp leaves
the visible status untouched. -/
def TemporalMergeStep (before : EntityStatus) (s : String) (t : Nat)
    (after : EntityStatus) : Prop :=
  ((s, t) ∈ before.events → after.events = before.events) ∧
  ((s, t) ∉ before.events → after.events = before.events ++ [(s, t)]) ∧
  ((before.currentTs = none ∨ ∃ t0, before.currentTs = some t0 ∧ t0 < t) →
     after.current = some s ∧ after.currentTs = some t) ∧
  (∀ t0, before.currentTs = some t0 → t ≤ t0 →
     after.current = before.current ∧ after.currentTs = before.currentTs)

/-- Number of stored receipts carrying a receipt code. -/
def receiptCount (rs : List InboundReceipt) (code : String) : Nat :=
  (rs.filter fun r => r.receipt_code == code).length

/-- The first stored receipt carrying a receipt code. -/
def receiptFor (rs : List InboundReceipt) (code : String) :
    Option InboundReceipt :=
  rs.find? fun r => r.receipt_code == code

/-- Number of stored receipt lines carrying a (receipt code, line number)
key. -/
def keyCount (ls : List InboundReceiptLine) (code : String) (ln : Nat) : Nat :=
  (ls.filter fun l => l.receiptCode == code && l.receipt_line == ln).length

/-- The first stored receipt line carrying a (receipt code, line number)
key. -/
def lineFor (ls : List InboundReceiptLine) (code : String) (ln : Nat) :
    Option InboundReceiptLine :=
  ls.find? fun l => l.receiptCode == code && l.receipt_line == ln

/-- A receipt line of a message resolves: its order id decodes and the decoded
order id with its SKU matches a known purchase-order line. -/
def lineResolves (pos : List PurchaseOrderProduct) (l : ReceiptLineData) : Prop :=
  ∃ i, decode l.orderId = some i ∧
    (pos.find? fun p => p.purchaseOrderPk == i && p.productSku == l.sku).isSome

/- Section: concrete sample data mirroring the fixtures of
src/logistics/tests/test_orian.py, used to instantiate the theorems below on
closed inputs -/

def respOk : OrianResponse :=
  { httpStatus := 200, status := some successToken, errorCode := none }

def respErr : OrianResponse :=
  { httpStatus := 200, status := none, errorCode := some "InvalidFormatData" }

def sampleSupplier : Supplier := { pk := 7, name := "supplier name" }

def sampleProduct : Product :=
  { pk := 21, sku := "1", name := "product 1 name", cost_price := 50,
    sale_price := 60 }

def sampleEmployee : Employee :=
  { full_name := "Test Employee 1", phone_number := "0500000006",
    email := "test1@test.test" }

def sampleOrg : Organization :=
  { manager_full_name := "Test manager", manager_phone_number := "0500000009",
    manager_email := "manager@test.test" }

def homeGroup : EmployeeGroup :=
  { delivery_city := "Office1", delivery_street := "Office street 1",
    delivery_street_number := "1", delivery_apartment_number := "2",
    delivery_location := DeliveryLocation.ToHome }

def officeGroup : EmployeeGroup :=
  { delivery_city := "Office2", delivery_street := "Office street 2",
    delivery_street_number := "3", delivery_apartment_number := "4",
    delivery_location := DeliveryLocation.ToOffice }

def sampleOrderHome : Order :=
  { pk := 1, status := OrderStatus.PENDING, full_name := "Test name 1",
    phone_number := "0500000000", additional_phone_number := "050000001",
    delivery_city := "City1", delivery_street := "Main1",
    delivery_street_number := "1", delivery_apartment_number := "1",
    delivery_additional_details := "Additional 1", employee := sampleEmployee,
    employeeGroup := homeGroup, organization := sampleOrg, egcPk := 11,
    lines := [{ sku := "1", quantity := 1 }], logistics_center_status := none,
    logistics_center_status_ts := none }

def sampleOrderOffice : Order :=
  { sampleOrderHome with pk := 3, employeeGroup := officeGroup, egcPk := 12 }

def samplePO : PurchaseOrder :=
  { pk := 5, supplierPk := 7, status := POStatus.PENDING,
    lines := [{ purchaseOrderPk := 5, productSku := "1", quantity_ordered := 2 },
              { purchaseOrderPk := 5, productSku := "2", quantity_ordered := 3 }],
    egcContext := none, sent_to_logistics_center_at := none }

def sampleEnvOk : OrianEnv :=
  { companyResp := respOk, skuResp := fun _ => respOk, inboundResp := respOk,
    outboundResp := respOk }

def sampleEnvCompanyFail : OrianEnv := { sampleEnvOk with companyResp := respErr }

def sampleEnvSkuFail : OrianEnv := { sampleEnvOk with skuResp := fun _ => respErr }

def sampleEnvInboundFail : OrianEnv := { sampleEnvOk with inboundResp := respErr }

def sampleEnvOutboundFail : OrianEnv := { sampleEnvOk with outboundResp := respErr }

def sampleDb : Db :=
  { purchaseOrderProducts :=
      [{ purchaseOrderPk := 5, productSku := "1", quantity_ordered := 2 },
       { purchaseOrderPk := 5, productSku := "2", quantity_ordered := 3 }],
    receipts := [], receiptLines := [], orders := [sampleOrderHome],
    statusEvents := [] }

def sampleOscMsg : OrderStatusChangeData :=
  { orderId := encode 1, toStatus := "PICKED", statusDate := 100 }

def sampleShipMsg : ShipOrderData :=
  { orderId := _platform_id_to_orian_id 1, status := "SHIPPED",
    shippedDate := 200 }

def receiptMsg1 : ReceiptData :=
  { receipt := "CODE4", startDate := 100, closeDate := 100,
    lines := [{ receiptLine := 1, sku := "1", orderId := encode 5, qtyReceived := 3 },
              { receiptLine := 2, sku := "2", orderId := encode 5, qtyReceived := 15 }] }

def receiptMsg2 : ReceiptData :=
  { receipt := "CODE4", startDate := 200, closeDate := 200,
    lines := [{ receiptLine := 1, sku := "1", orderId := encode 5, qtyReceived := 30 },
              { receiptLine := 2, sku := "2", orderId := encode 5, qtyReceived := 150 }] }

def receiptMsgBad : ReceiptData :=
  { receipt := "CODE2", startDate := 100, closeDate := 100,
    lines := [{ receiptLine := 1, sku := "0", orderId := encode 0, qtyReceived := 1 }] }

def invalidBody1 : Json := Json.obj []

def invalidBody2 : Json :=
  Json.obj [("DATACOLLECTION", Json.obj [("DATA", Json.obj [])])]

/- Section: id codec lemmas -/

theorem charDigitVal_digitChar : ∀ d : Nat, d < 10 →
    charDigitVal (digitChar d) = some d := by
  decide

theorem parseDigitsVal_append (xs ys : List Char) (a : Nat) :
    parseDigitsVal (xs ++ ys) a =
      (parseDigitsVal xs a).bind fun m => parseDigitsVal ys m := by
  induction xs generalizing a with
  | nil => simp [parseDigitsVal]
  | cons c cs ih =>
    cases h : charDigitVal c with
    | none => simp [parseDigitsVal, h]
    | some d => simp [parseDigitsVal, h, ih]

theorem parseDigitsVal_natDigitCharsAux (n : Nat) :
    ∀ fuel a, n ≤ fuel →
      parseDigitsVal (natDigitCharsAux fuel n) a =
        some (a * 10 ^ (natDigitCharsAux fuel n).length + n) := by
  induction n using Nat.strong_induction_on with
  | _ n ih =>
    intro fuel a hle
    match fuel with
    | 0 =>
      have h0 : n = 0 := Nat.le_zero.mp hle
      subst h0
      simp [natDigitCharsAux, parseDigitsVal]
    | f + 1 =>
      by_cases h0 : n = 0
      · subst h0
        simp [natDigitCharsAux, parseDigitsVal]
      · have hdiv : n / 10 < n := Nat.div_lt_self (Nat.pos_of_ne_zero h0) (by norm_num)
        have hdivle : n / 10 ≤ f := Nat.lt_succ_iff.mp (lt_of_lt_of_le hdiv hle)
        have ihdiv := ih (n / 10) hdiv f a hdivle
        have hd : charDigitVal (digitChar (n % 10)) = some (n % 10) :=
          charDigitVal_digitChar (n % 10) (Nat.mod_lt n (by norm_num))
        simp only [natDigitCharsAux, if_neg h0]
        rw [parseDigitsVal_append, ihdiv]
        simp only [parseDigitsVal, hd, Option.some_bind]
        have hlen : (natDigitCharsAux f (n / 10) ++ [digitChar (n % 10)]).length =
            (natDigitCharsAux f (n / 10)).length + 1 := by simp
        rw [hlen]
        congr 1
        have hmod : 10 * (n / 10) + n % 10 = n := Nat.div_add_mod n 10
        have h1 : 10 * (a * 10 ^ (natDigitCharsAux f (n / 10)).length + n / 10) + n % 10 =
            10 * (a * 10 ^ (natDigitCharsAux f (n / 10)).length) +
              (10 * (n / 10) + n % 10) := by ring
        rw [h1, hmod, pow_succ]
        ring

theorem parseDigitChars_natDigitChars (n : Nat) :
    parseDigitChars (natDigitChars n) = some n := by
  by_cases h0 : n = 0
  · subst h0; rfl
  · have h1 : 1 ≤ n := Nat.pos_of_ne_zero h0
    have hfuel : n = (n - 1) + 1 := (Nat.succ_pred_eq_of_pos h1).symm
    have hne0 : natDigitCharsAux n n ≠ [] := by
      rw [hfuel]
      simp only [natDigitCharsAux, if_neg h0]
      simp
    have hempty : (natDigitCharsAux n n).isEmpty = false := by
      cases h : natDigitCharsAux n n with
      | nil => exact absurd h hne0
      | cons c cs => rfl
    unfold natDigitChars parseDigitChars
    rw [if_neg h0]
    simp only [hempty, Bool.false_eq_true, if_false]
    rw [parseDigitsVal_natDigitCharsAux n n 0 (le_refl n)]
    simp

theorem decode_encode (i : Nat) : decode (encode i) = some i := by
  have h : decode (encode i) = parseDigitChars (natDigitChars i) := rfl
  rw [h, parseDigitChars_natDigitChars]

theorem decode_legacy (i : Nat) :
    decode (_platform_id_to_orian_id i) = some i := by
  have h : decode (_platform_id_to_orian_id i) = parseDigitChars (natDigitChars i) := rfl
  rw [h, parseDigitChars_natDigitChars]

example : decode (encode 37) = some 37 := by decide

example : decode (_platform_id_to_orian_id 240) = some 240 := by decide

example : decode "unknown" = none := by decide

/-- C4: for every platform id, decoding the canonical encoding yields the id
back, decoding the legacy (deprecated) encoding yields the id back, and an
inbound message referencing an order by either encoding resolves to the same
platform entity. -/
theorem claim_C4_id_codec_round_trip :
    ∀ i : Nat, decode (encode i) = some i ∧
      decode (_platform_id_to_orian_id i) = some i ∧
      ∀ orders : List Order,
        resolveOrder orders (encode i) =
          resolveOrder orders (_platform_id_to_orian_id i) := by
  intro i
  refine ⟨decode_encode i, decode_legacy i, fun orders => ?_⟩
  unfold resolveOrder
  rw [decode_encode i, decode_legacy i]

/- Section: response envelope lemmas -/

theorem businessSuccess_true_iff (r : OrianResponse) :
    businessSuccess r = true ↔
      r.status = some successToken ∧ r.errorCode = none := by
  simp [businessSuccess]

theorem businessSuccess_false_of (r : OrianResponse)
    (h : r.status ≠ some successToken ∨ r.errorCode ≠ none) :
    businessSuccess r = false := by
  rw [Bool.eq_false_iff]
  intro ht
  rcases (businessSuccess_true_iff r).mp ht with ⟨h1, h2⟩
  rcases h with h | h
  · exact h h1
  · exact h h2

theorem businessSuccess_congr (r r' : OrianResponse)
    (h1 : r'.status = r.status) (h2 : r'.errorCode = r.errorCode) :
    businessSuccess r' = businessSuccess r := by
  simp [businessSuccess, h1, h2]

/-- C3: for every outbound sync operation, an always-200 response whose body
lacks the success token or carries a non-null error code makes the call return
failure; a body with the success token and a null error code makes it return
success; and the transport status plays no part in the result. -/
theorem claim_C3_sync_result_from_body :
    ∀ (s : Supplier) (p : Product) (po : PurchaseOrder) (o : Order) (t : Nat)
      (r : OrianResponse),
      ((r.status ≠ some successToken ∨ r.errorCode ≠ none) →
        (add_or_update_supplier s r).2 = false ∧
        (add_or_update_product p r).2 = false ∧
        (add_or_update_inbound po t r).2 = false ∧
        (add_or_update_outbound o t r).2 = false) ∧
      (r.status = some successToken → r.errorCode = none →
        (add_or_update_supplier s r).2 = true ∧
        (add_or_update_product p r).2 = true ∧
        (add_or_update_inbound po t r).2 = true ∧
        (add_or_update_outbound o t r).2 = true) ∧
      (∀ r' : OrianResponse, r'.status = r.status → r'.errorCode = r.errorCode →
        (add_or_update_supplier s r').2 = (add_or_update_supplier s r).2 ∧
        (add_or_update_product p r').2 = (add_or_update_product p r).2 ∧
        (add_or_update_inbound po t r').2 = (add_or_update_inbound po t r).2 ∧
        (add_or_update_outbound o t r').2 = (add_or_update_outbound o t r).2) := by
  intro s p po o t r
  refine ⟨fun h => ?_, fun h1 h2 => ?_, fun r' h1 h2 => ?_⟩
  · have hb : businessSuccess r = false := businessSuccess_false_of r h
    exact ⟨hb, hb, hb, hb⟩
  · have hb : businessSuccess r = true := (businessSuccess_true_iff r).mpr ⟨h1, h2⟩
    exact ⟨hb, hb, hb, hb⟩
  · have hb : businessSuccess r' = businessSuccess r := businessSuccess_congr r r' h1 h2
    exact ⟨hb, hb, hb, hb⟩

/-- C3 witness: the error-body fixture makes every sync return false, and the
success-body fixture makes every sync return true, at concrete inputs. -/
theorem claim_C3_sync_result_from_body_witness :
    (respErr.status ≠ some successToken ∨ respErr.errorCode ≠ none) ∧
    (add_or_update_supplier sampleSupplier respErr).2 = false ∧
    (add_or_update_outbound sampleOrderHome 0 respErr).2 = false ∧
    (add_or_update_supplier sampleSupplier respOk).2 = true := by
  have h1 := (claim_C3_sync_result_from_body sampleSupplier sampleProduct samplePO
    sampleOrderHome 0 respErr).1 (Or.inl (by decide))
  have h2 := (claim_C3_sync_result_from_body sampleSupplier sampleProduct samplePO
    sampleOrderHome 0 respOk).2.1 (by decide) (by decide)
  exact ⟨Or.inl (by decide), h1.1, h1.2.2.2, h2.1⟩

/-- C5: delivery-contact resolution of the outbound sync: under a to-office
policy the manager is the primary name/phone/email contact and the recipient
the secondary; under a to-home policy the order's own contact fields fill both
name slots and both phone slots (the additional phone as the secondary) and
the secondary email is left empty. -/
theorem claim_C5_delivery_contact_resolution :
    ∀ (o : Order) (t : Nat) (r : OrianResponse),
      (o.employeeGroup.delivery_location = DeliveryLocation.ToOffice →
        (add_or_update_outbound o t r).1.contact.contact1Name =
            o.organization.manager_full_name ∧
        (add_or_update_outbound o t r).1.contact.contact1Phone =
            o.organization.manager_phone_number ∧
        (add_or_update_outbound o t r).1.contact.contact1Email =
            o.organization.manager_email ∧
        (add_or_update_outbound o t r).1.contact.contact2Name =
            o.employee.full_name ∧
        (add_or_update_outbound o t r).1.contact.contact2Phone =
            o.employee.phone_number ∧
        (add_or_update_outbound o t r).1.contact.contact2Email =
            o.employee.email) ∧
      (o.employeeGroup.delivery_location = DeliveryLocation.ToHome →
        (add_or_update_outbound o t r).1.contact.contact1Name = o.full_name ∧
        (add_or_update_outbound o t r).1.contact.contact2Name = o.full_name ∧
        (add_or_update_outbound o t r).1.contact.contact1Phone = o.phone_number ∧
        (add_or_update_outbound o t r).1.contact.contact2Phone =
            o.additional_phone_number ∧
        (add_or_update_outbound o t r).1.contact.contact2Email = "") := by
  intro o t r
  constructor
  · intro h
    simp [add_or_update_outbound, buildOutboundContact, h]
  · intro h
    simp [add_or_update_outbound, buildOutboundContact, h]

/-- C5 witness: the office and home fixtures instantiate both branches. -/
theorem claim_C5_delivery_contact_resolution_witness :
    sampleOrderOffice.employeeGroup.delivery_location = DeliveryLocation.ToOffice ∧
    sampleOrderHome.employeeGroup.delivery_location = DeliveryLocation.ToHome ∧
    (add_or_update_outbound sampleOrderOffice 0 respOk).1.contact.contact1Name =
      sampleOrderOffice.organization.manager_full_name ∧
    (add_or_update_outbound sampleOrderHome 0 respOk).1.contact.contact2Email = "" := by
  refine ⟨rfl, rfl, ?_, ?_⟩
  · exact ((claim_C5_delivery_contact_resolution sampleOrderOffice 0 respOk).1 rfl).1
  · exact ((claim_C5_delivery_contact_resolution sampleOrderHome 0 respOk).2 rfl).2.2.2.2

/-- C9: both the purchase-order (inbound) sync and the customer-order
(outbound) sync compute the reference-order field as the empty string when the
order is tied to no single employee-group-campaign context and as that
context's encoded id otherwise. -/
theorem claim_C9_reference_order_field :
    ∀ (po : PurchaseOrder) (o : Order) (t : Nat) (r : OrianResponse),
      (po.egcContext = none →
        (add_or_update_inbound po t r).1.referenceOrder = "") ∧
      (∀ i, po.egcContext = some i →
        (add_or_update_inbound po t r).1.referenceOrder =
          _platform_id_to_orian_id i) ∧
      (o.egcContext = none →
        (add_or_update_outbound o t r).1.referenceOrder = "") ∧
      (∀ i, o.egcContext = some i →
        (add_or_update_outbound o t r).1.referenceOrder =
          _platform_id_to_orian_id i) := by
  intro po o t r
  refine ⟨fun h => ?_, fun i h => ?_, fun h => ?_, fun i h => ?_⟩
  · simp [add_or_update_inbound, h]
  · simp [add_or_update_inbound, h]
  · simp [add_or_update_outbound, h]
  · simp [add_or_update_outbound, h]

/-- C9 witness: the fixtures instantiate the untied purchase order, the untied
home-delivery order and the tied office-delivery order. -/
theorem claim_C9_reference_order_field_witness :
    samplePO.egcContext = none ∧
    sampleOrderHome.egcContext = none ∧
    sampleOrderOffice.egcContext = some 12 ∧
    (add_or_update_inbound samplePO 0 respOk).1.referenceOrder = "" ∧
    (add_or_update_outbound sampleOrderHome 0 respOk).1.referenceOrder = "" ∧
    (add_or_update_outbound sampleOrderOffice 0 respOk).1.referenceOrder =
      _platform_id_to_orian_id 12 := by
  refine ⟨rfl, rfl, rfl, ?_, ?_, ?_⟩
  · exact (claim_C9_reference_order_field samplePO sampleOrderHome 0 respOk).1 rfl
  · exact (claim_C9_reference_order_field samplePO sampleOrderHome 0 respOk).2.2.1 rfl
  · exact (claim_C9_reference_order_field samplePO sampleOrderOffice 0 respOk).2.2.2 12 rfl

/-- C10: a fully successful send_order_to_logistics_center run moves a pending
order's platform status to SENT_TO_LOGISTIC_CENTER; a business failure at the
company step or the outbound step surfaces as a hard failure and leaves the
status pending. -/
theorem claim_C10_send_order_task_status :
    ∀ (env : OrianEnv) (o : Order) (now : Nat),
      o.status = OrderStatus.PENDING →
      (businessSuccess env.companyResp = true →
        businessSuccess env.outboundResp = true →
        send_order_to_logistics_center env o now =
          ({ o with status := OrderStatus.SENT_TO_LOGISTIC_CENTER }, none)) ∧
      ((businessSuccess env.companyResp = false ∨
          businessSuccess env.outboundResp = false) →
        (send_order_to_logistics_center env o now).2 =
          some ProcError.businessFailure ∧
        (send_order_to_logistics_center env o now).1.status =
          OrderStatus.PENDING) := by
  intro env o now hpend
  have houtb : (add_or_update_outbound o now env.outboundResp).2 =
      businessSuccess env.outboundResp := rfl
  constructor
  · intro hc ho
    unfold send_order_to_logistics_center
    rw [hc, houtb, ho]
    simp
  · intro h
    unfold send_order_to_logistics_center
    rcases h with h | h
    · rw [h]
      simp [hpend]
    · rw [houtb, h]
      cases hc : businessSuccess env.companyResp <;> simp [hpend]

/-- C10 witness: the fixtures instantiate the success path and both failure
paths at the concrete pending order. -/
theorem claim_C10_send_order_task_status_witness :
    sampleOrderHome.status = OrderStatus.PENDING ∧
    send_order_to_logistics_center sampleEnvOk sampleOrderHome 0 =
      ({ sampleOrderHome with status := OrderStatus.SENT_TO_LOGISTIC_CENTER },
       none) ∧
    (send_order_to_logistics_center sampleEnvCompanyFail sampleOrderHome 0).2 =
      some ProcError.businessFailure ∧
    (send_order_to_logistics_center sampleEnvOutboundFail sampleOrderHome 0).1.status =
      OrderStatus.PENDING := by
  refine ⟨rfl, ?_, ?_, ?_⟩
  · exact (claim_C10_send_order_task_status sampleEnvOk sampleOrderHome 0 rfl).1
      (by decide) (by decide)
  · exact ((claim_C10_send_order_task_status sampleEnvCompanyFail sampleOrderHome 0
      rfl).2 (Or.inl (by decide))).1
  · exact ((claim_C10_send_order_task_status sampleEnvOutboundFail sampleOrderHome 0
      rfl).2 (Or.inr (by decide))).2

/- Section: envelope parsing lemmas -/

theorem parse_inbound_receipt_env_none (j : Json) (h : envelopeData j = none) :
    parse_inbound_receipt j = none := by
  simp [parse_inbound_receipt, h]

theorem parse_inbound_receipt_key_none (j data : Json)
    (h : envelopeData j = some data) (hk : data.get? "RECEIPT" = none) :
    parse_inbound_receipt j = none := by
  simp [parse_inbound_receipt, h, hk]

theorem parse_order_status_change_env_none (j : Json)
    (h : envelopeData j = none) : parse_order_status_change j = none := by
  simp [parse_order_status_change, h]

theorem parse_order_status_change_key_none (j data : Json)
    (h : envelopeData j = some data) (hk : data.get? "ORDERID" = none) :
    parse_order_status_change j = none := by
  simp [parse_order_status_change, h, hk]

theorem parse_ship_order_env_none (j : Json) (h : envelopeData j = none) :
    parse_ship_order j = none := by
  simp [parse_ship_order, h]

theorem parse_ship_order_key_none (j data : Json)
    (h : envelopeData j = some data) (hk : data.get? "ORDERID" = none) :
    parse_ship_order j = none := by
  simp [parse_ship_order, h, hk]

/-- C8: a received message with an unknown declared type, or whose envelope is
missing the expected top-level keys, fails with the structural
MalformedMessage error and persists no derived records: the state is returned
untouched. -/
theorem claim_C8_malformed_envelope :
    ∀ (db : Db) (ref : Nat) (t : String) (body : Json),
      ((t ≠ "INBOUND_RECEIPT" ∧ t ≠ "ORDER_STATUS_CHANGE" ∧ t ≠ "SHIP_ORDER") ∨
        envelopeData body = none ∨
        (∃ data, envelopeData body = some data ∧
          data.get? "RECEIPT" = none ∧ data.get? "ORDERID" = none)) →
      process_logistics_center_message db ref t body =
        (db, some ProcError.malformedMessage) := by
  intro db ref t body h
  rcases h with ⟨h1, h2, h3⟩ | h | ⟨data, hdata, hr, ho⟩
  · simp [process_logistics_center_message, h1, h2, h3]
  · unfold process_logistics_center_message
    rw [parse_inbound_receipt_env_none body h,
        parse_order_status_change_env_none body h,
        parse_ship_order_env_none body h]
    rcases ht1 : t == "INBOUND_RECEIPT" <;>
      rcases ht2 : t == "ORDER_STATUS_CHANGE" <;>
      rcases ht3 : t == "SHIP_ORDER" <;> simp [ht1, ht2, ht3]
  · unfold process_logistics_center_message
    rw [parse_inbound_receipt_key_none body data hdata hr,
        parse_order_status_change_key_none body data hdata ho,
        parse_ship_order_key_none body data hdata ho]
    rcases ht1 : t == "INBOUND_RECEIPT" <;>
      rcases ht2 : t == "ORDER_STATUS_CHANGE" <;>
      rcases ht3 : t == "SHIP_ORDER" <;> simp [ht1, ht2, ht3]

/-- C8 witness: the two invalid fixture bodies and an unknown type fail with
MalformedMessage without touching the state. -/
theorem claim_C8_malformed_envelope_witness :
    envelopeData invalidBody1 = none ∧
    process_logistics_center_message sampleDb 1 "INBOUND_RECEIPT" invalidBody1 =
      (sampleDb, some ProcError.malformedMessage) ∧
    process_logistics_center_message sampleDb 1 "ORDER_STATUS_CHANGE" invalidBody2 =
      (sampleDb, some ProcError.malformedMessage) ∧
    process_logistics_center_message sampleDb 1 "BOGUS" invalidBody1 =
      (sampleDb, some ProcError.malformedMessage) := by
  refine ⟨rfl, ?_, ?_, ?_⟩
  · exact claim_C8_malformed_envelope sampleDb 1 "INBOUND_RECEIPT" invalidBody1
      (Or.inr (Or.inl rfl))
  · exact claim_C8_malformed_envelope sampleDb 1 "ORDER_STATUS_CHANGE" invalidBody2
      (Or.inr (Or.inr ⟨Json.obj [], rfl, rfl, rfl⟩))
  · exact claim_C8_malformed_envelope sampleDb 1 "BOGUS" invalidBody1
      (Or.inl ⟨by decide, by decide, by decide⟩)

/- Section: orchestration lemmas -/

theorem syncProducts_all_ok (env : OrianEnv) (ps : List String)
    (h : ∀ s ∈ ps, businessSuccess (env.skuResp s) = true) :
    syncProducts env ps = (ps.map ApiCall.sku, true) := by
  induction ps with
  | nil => rfl
  | cons a rest ih =>
    have ha : businessSuccess (env.skuResp a) = true := h a (by simp)
    have hrest := ih fun x hx => h x (by simp [hx])
    simp [syncProducts, ha, hrest]

theorem syncProducts_fail (env : OrianEnv) (ps : List String)
    (h : ∃ s ∈ ps, businessSuccess (env.skuResp s) = false) :
    (syncProducts env ps).2 = false := by
  induction ps with
  | nil =>
    rcases h with ⟨s, hs, _⟩
    cases hs
  | cons a rest ih =>
    cases ha : businessSuccess (env.skuResp a) with
    | false => simp [syncProducts, ha]
    | true =>
      rcases h with ⟨s, hs, hfail⟩
      rcases List.mem_cons.mp hs with rfl | hs'
      · rw [ha] at hfail
        cases hfail
      · have := ih ⟨s, hs', hfail⟩
        simp [syncProducts, ha, this]

theorem syncProducts_calls_sku (env : OrianEnv) (ps : List String) :
    ∀ c ∈ (syncProducts env ps).1, ∃ s, c = ApiCall.sku s := by
  induction ps with
  | nil => simp [syncProducts]
  | cons a rest ih =>
    cases ha : businessSuccess (env.skuResp a) with
    | false =>
      simp [syncProducts, ha]
    | true =>
      intro c hc
      simp only [syncProducts, ha, if_true, List.mem_cons] at hc
      rcases hc with rfl | hc
      · exact ⟨a, rfl⟩
      · exact ih c hc

/-- C6: saving a purchase order queues the send task exactly when the saved
status is APPROVED; the task runs supplier sync, one product sync per distinct
product on the purchase order's lines and then the inbound sync, in that
order, each endpoint called exactly once on the happy path; a business failure
at the supplier step, at any product step or at the inbound step surfaces as a
hard failure and aborts the chain before the next step. -/
theorem claim_C6_purchase_order_approval_chain :
    (∀ po : PurchaseOrder,
      (po.status = POStatus.APPROVED →
        purchase_order_post_save po = some po.pk) ∧
      (po.status ≠ POStatus.APPROVED → purchase_order_post_save po = none)) ∧
    (∀ (env : OrianEnv) (po : PurchaseOrder) (now : Nat),
      businessSuccess env.companyResp = true →
      (∀ s ∈ distinctProductSkus po, businessSuccess (env.skuResp s) = true) →
      businessSuccess env.inboundResp = true →
      (send_purchase_order_to_logistics_center env po now).2.1 =
        ApiCall.company (_platform_id_to_orian_id po.supplierPk)
          :: (distinctProductSkus po).map ApiCall.sku
          ++ [ApiCall.inbound (encode po.pk)] ∧
      (send_purchase_order_to_logistics_center env po now).2.2 = none ∧
      (send_purchase_order_to_logistics_center env po now).2.1.count
        (ApiCall.company (_platform_id_to_orian_id po.supplierPk)) = 1 ∧
      (∀ s ∈ distinctProductSkus po,
        (send_purchase_order_to_logistics_center env po now).2.1.count
          (ApiCall.sku s) = 1) ∧
      (send_purchase_order_to_logistics_center env po now).2.1.count
        (ApiCall.inbound (encode po.pk)) = 1) ∧
    (∀ (env : OrianEnv) (po : PurchaseOrder) (now : Nat),
      businessSuccess env.companyResp = false →
      (send_purchase_order_to_logistics_center env po now).2.2 =
        some ProcError.businessFailure ∧
      (send_purchase_order_to_logistics_center env po now).2.1 =
        [ApiCall.company (_platform_id_to_orian_id po.supplierPk)]) ∧
    (∀ (env : OrianEnv) (po : PurchaseOrder) (now : Nat),
      (∃ s ∈ distinctProductSkus po,
        businessSuccess (env.skuResp s) = false) →
      (send_purchase_order_to_logistics_center env po now).2.2 =
        some ProcError.businessFailure ∧
      ∀ oid, ApiCall.inbound oid ∉
        (send_purchase_order_to_logistics_center env po now).2.1) ∧
    (∀ (env : OrianEnv) (po : PurchaseOrder) (now : Nat),
      businessSuccess env.companyResp = true →
      (∀ s ∈ distinctProductSkus po, businessSuccess (env.skuResp s) = true) →
      businessSuccess env.inboundResp = false →
      (send_purchase_order_to_logistics_center env po now).2.2 =
        some ProcError.businessFailure) := by
  refine ⟨?_, ?_, ?_, ?_, ?_⟩
  · intro po
    constructor
    · intro h
      simp [purchase_order_post_save, h]
    · intro h
      simp [purchase_order_post_save, h]
  · intro env po now hc hs hi
    have hsync := syncProducts_all_ok env (distinctProductSkus po) hs
    have hcalls : (send_purchase_order_to_logistics_center env po now).2.1 =
        ApiCall.company (_platform_id_to_orian_id po.supplierPk)
          :: (distinctProductSkus po).map ApiCall.sku
          ++ [ApiCall.inbound (encode po.pk)] := by
      simp [send_purchase_order_to_logistics_center, hc, hsync, hi]
    have herr : (send_purchase_order_to_logistics_center env po now).2.2 = none := by
      simp [send_purchase_order_to_logistics_center, hc, hsync, hi]
    refine ⟨hcalls, herr, ?_, ?_, ?_⟩
    · rw [hcalls]
      have h0 : ((distinctProductSkus po).map ApiCall.sku).count
          (ApiCall.company (_platform_id_to_orian_id po.supplierPk)) = 0 := by
        rw [List.count_eq_zero]
        simp
      simp [List.count_cons, List.count_append, h0]
    · intro s hmem
      rw [hcalls]
      have h1 : ((distinctProductSkus po).map ApiCall.sku).count (ApiCall.sku s) =
          (distinctProductSkus po).count s :=
        List.count_map_of_injective _ _ (fun a b h => by cases h; rfl) s
      have h2 : (distinctProductSkus po).count s = 1 :=
        List.count_eq_one_of_mem (List.nodup_dedup _) hmem
      simp [List.count_cons, List.count_append, h1, h2]
    · rw [hcalls]
      have h0 : ((distinctProductSkus po).map ApiCall.sku).count
          (ApiCall.inbound (encode po.pk)) = 0 := by
        rw [List.count_eq_zero]
        simp
      simp [List.count_cons, List.count_append, h0]
  · intro env po now hc
    constructor <;> simp [send_purchase_order_to_logistics_center, hc]
  · intro env po now hfail
    have hsync := syncProducts_fail env (distinctProductSkus po) hfail
    cases hc : businessSuccess env.companyResp with
    | false =>
      constructor
      · simp [send_purchase_order_to_logistics_center, hc]
      · intro oid
        simp [send_purchase_order_to_logistics_center, hc]
    | true =>
      constructor
      · simp [send_purchase_order_to_logistics_center, hc, hsync]
      · intro oid
        simp only [send_purchase_order_to_logistics_center, hc, if_true, hsync,
          Bool.false_eq_true, if_false, List.mem_cons]
        rintro (h | h)
        · cases h
        · rcases syncProducts_calls_sku env (distinctProductSkus po) _ h with ⟨s, hs⟩
          cases hs
  · intro env po now hc hs hi
    have hsync := syncProducts_all_ok env (distinctProductSkus po) hs
    simp [send_purchase_order_to_logistics_center, hc, hsync, hi]

/-- C6 witness: the trigger and the three failure paths at the concrete
purchase order and environment fixtures. -/
theorem claim_C6_purchase_order_approval_chain_witness :
    purchase_order_post_save { samplePO with status := POStatus.APPROVED } =
      some samplePO.pk ∧
    (send_purchase_order_to_logistics_center sampleEnvOk samplePO 0).2.2 = none ∧
    (send_purchase_order_to_logistics_center sampleEnvCompanyFail samplePO 0).2.1 =
      [ApiCall.company (_platform_id_to_orian_id samplePO.supplierPk)] ∧
    (send_purchase_order_to_logistics_center sampleEnvSkuFail samplePO 0).2.2 =
      some ProcError.businessFailure ∧
    (send_purchase_order_to_logistics_center sampleEnvInboundFail samplePO 0).2.2 =
      some ProcError.businessFailure := by
  refine ⟨?_, ?_, ?_, ?_, ?_⟩
  · exact (claim_C6_purchase_order_approval_chain.1
      { samplePO with status := POStatus.APPROVED }).1 rfl
  · exact ((claim_C6_purchase_order_approval_chain.2.1 sampleEnvOk samplePO 0
      (by decide) (fun s _ => rfl) (by decide))).2.1
  · exact (claim_C6_purchase_order_approval_chain.2.2.1 sampleEnvCompanyFail
      samplePO 0 (by decide)).2
  · exact (claim_C6_purchase_order_approval_chain.2.2.2.1 sampleEnvSkuFail
      samplePO 0 ⟨"1", by decide, by decide⟩).1
  · exact claim_C6_purchase_order_approval_chain.2.2.2.2 sampleEnvInboundFail
      samplePO 0 (by decide) (fun s _ => rfl) (by decide)

/- Section: temporal merge lemmas -/

theorem mem_entityEventsFor (evs : List StatusEvent) (pk : Nat) (s : String)
    (t : Nat) :
    (s, t) ∈ entityEventsFor evs pk ↔ StatusEvent.mk pk s t ∈ evs := by
  unfold entityEventsFor
  simp only [List.mem_map, List.mem_filter, beq_iff_eq]
  constructor
  · rintro ⟨e, ⟨he, hpk⟩, hpair⟩
    have h1 : e.status = s := congrArg Prod.fst hpair
    have h2 : e.statusTs = t := congrArg Prod.snd hpair
    have he2 : e = StatusEvent.mk pk s t := by
      cases e
      simp_all
    rw [← he2]
    exact he
  · intro h
    exact ⟨StatusEvent.mk pk s t, ⟨h, rfl⟩, rfl⟩

theorem entityEventsFor_append_self (evs : List StatusEvent) (pk : Nat)
    (s : String) (t : Nat) :
    entityEventsFor (evs ++ [StatusEvent.mk pk s t]) pk =
      entityEventsFor evs pk ++ [(s, t)] := by
  unfold entityEventsFor
  rw [List.filter_append]
  simp

theorem find?_pk_map_ite (orders : List Order) (pk : Nat) (f : Order → Order)
    (hf : ∀ o, (f o).pk = o.pk) :
    ((orders.map fun o2 => if o2.pk == pk then f o2 else o2).find?
        fun o => o.pk == pk) =
      (orders.find? fun o => o.pk == pk).map f := by
  induction orders with
  | nil => rfl
  | cons a l ih =>
    simp only [List.map_cons]
    by_cases h : a.pk = pk
    · have hb : (a.pk == pk) = true := beq_iff_eq.mpr h
      have hfa : ((f a).pk == pk) = true := by rw [hf]; exact hb
      rw [if_pos hb]
      have s1 : ((f a :: (l.map fun o2 => if o2.pk == pk then f o2 else o2)).find?
          fun o => o.pk == pk) = some (f a) := by
        apply List.find?_cons_of_pos
        exact hfa
      have s2 : ((a :: l).find? fun o => o.pk == pk) = some a := by
        apply List.find?_cons_of_pos
        exact hb
      rw [s1, s2]
      rfl
    · have hb : (a.pk == pk) = false := by
        simpa using h
      rw [if_neg (by simp [hb])]
      have s1 : ((a :: (l.map fun o2 => if o2.pk == pk then f o2 else o2)).find?
          fun o => o.pk == pk) =
          ((l.map fun o2 => if o2.pk == pk then f o2 else o2).find?
            fun o => o.pk == pk) := by
        apply List.find?_cons_of_neg
        simp [hb]
      have s2 : ((a :: l).find? fun o => o.pk == pk) =
          (l.find? fun o => o.pk == pk) := by
        apply List.find?_cons_of_neg
        simp [hb]
      rw [s1, s2]
      exact ih

theorem applyOrderStatus_statusEvents (db : Db) (o : Order) (s : String)
    (t : Nat) :
    (applyOrderStatus db o s t).statusEvents =
      (if StatusEvent.mk o.pk s t ∈ db.statusEvents then db.statusEvents
       else db.statusEvents ++ [StatusEvent.mk o.pk s t]) := rfl

theorem applyOrderStatus_current (db : Db) (o : Order) (s : String) (t : Nat)
    (hfind : db.orders.find? (fun o2 => o2.pk == o.pk) = some o) :
    currentOf (applyOrderStatus db o s t) o.pk =
      (if (match o.logistics_center_status_ts with
           | none => true
           | some t0 => decide (t0 < t)) = true
       then (some s, some t)
       else (o.logistics_center_status, o.logistics_center_status_ts)) := by
  have hupd : (applyOrderStatus db o s t).orders =
      db.orders.map fun o2 =>
        if o2.pk == o.pk then
          (if (match o.logistics_center_status_ts with
               | none => true
               | some t0 => decide (t0 < t)) = true then
            { o2 with logistics_center_status := some s
                      logistics_center_status_ts := some t }
           else o2)
        else o2 := rfl
  unfold currentOf
  rw [hupd]
  rw [find?_pk_map_ite db.orders o.pk _
    (by intro o2; cases hm : (match o.logistics_center_status_ts with
          | none => true
          | some t0 => decide (t0 < t)) <;> simp [hm])]
  rw [hfind]
  cases hm : (match o.logistics_center_status_ts with
      | none => true
      | some t0 => decide (t0 < t)) with
  | true => simp [hm]
  | false => simp [hm]

theorem applyOrderStatus_temporal_merge (db : Db) (o : Order) (s : String)
    (t : Nat) (i : Nat) (hpk : o.pk = i)
    (hfind : db.orders.find? (fun o2 => o2.pk == i) = some o) :
    TemporalMergeStep
      { events := entityEventsFor db.statusEvents i,
        current := o.logistics_center_status,
        currentTs := o.logistics_center_status_ts } s t
      { events := entityEventsFor (applyOrderStatus db o s t).statusEvents i,
        current := (currentOf (applyOrderStatus db o s t) i).1,
        currentTs := (currentOf (applyOrderStatus db o s t) i).2 } := by
  subst hpk
  have hcur := applyOrderStatus_current db o s t hfind
  refine ⟨?_, ?_, ?_, ?_⟩
  · intro hmem
    have hm : StatusEvent.mk o.pk s t ∈ db.statusEvents :=
      (mem_entityEventsFor db.statusEvents o.pk s t).mp hmem
    simp only [applyOrderStatus_statusEvents, if_pos hm]
  · intro hmem
    have hm : StatusEvent.mk o.pk s t ∉ db.statusEvents := fun hc =>
      hmem ((mem_entityEventsFor db.statusEvents o.pk s t).mpr hc)
    simp only [applyOrderStatus_statusEvents, if_neg hm]
    exact entityEventsFor_append_self db.statusEvents o.pk s t
  · intro hnew
    have haccept : (match o.logistics_center_status_ts with
        | none => true
        | some t0 => decide (t0 < t)) = true := by
      rcases hnew with hn | ⟨t0, ht0, hlt⟩
      · have hn2 : o.logistics_center_status_ts = none := hn
        rw [hn2]
      · have ht2 : o.logistics_center_status_ts = some t0 := ht0
        rw [ht2]
        simpa using hlt
    rw [haccept] at hcur
    simp only [if_pos rfl] at hcur
    constructor
    · show (currentOf (applyOrderStatus db o s t) o.pk).1 = some s
      simp [hcur]
    · show (currentOf (applyOrderStatus db o s t) o.pk).2 = some t
      simp [hcur]
  · intro t0 ht0 hle
    have ht2 : o.logistics_center_status_ts = some t0 := ht0
    have haccept : (match o.logistics_center_status_ts with
        | none => true
        | some t0 => decide (t0 < t)) = false := by
      rw [ht2]
      simpa using Nat.not_lt.mpr hle
    rw [haccept] at hcur
    simp only [Bool.false_eq_true, if_false] at hcur
    constructor
    · show (currentOf (applyOrderStatus db o s t) o.pk).1 =
        o.logistics_center_status
      simp [hcur]
    · show (currentOf (applyOrderStatus db o s t) o.pk).2 =
        o.logistics_center_status_ts
      simp [hcur]

/-- C1: for every order and every processed status message, arriving through
either the ORDER_STATUS_CHANGE path or the SHIP_ORDER path, the handler
succeeds and performs exactly the temporal merge step: the event is appended
unless the identical (status, timestamp) pair already exists for that order,
the visible status moves only when no timestamp was accepted before or the new
timestamp is strictly greater, and an equal or older timestamp is recorded as
an event but leaves the visible status unchanged. -/
theorem claim_C1_temporal_merge_rule :
    (∀ (db : Db) (m : OrderStatusChangeData) (i : Nat) (o : Order),
      decode m.orderId = some i →
      db.orders.find? (fun o2 => o2.pk == i) = some o →
      (handle_order_status_change db m).2 = none ∧
      TemporalMergeStep
        { events := entityEventsFor db.statusEvents i,
          current := o.logistics_center_status,
          currentTs := o.logistics_center_status_ts } m.toStatus m.statusDate
        { events :=
            entityEventsFor (handle_order_status_change db m).1.statusEvents i,
          current := (currentOf (handle_order_status_change db m).1 i).1,
          currentTs := (currentOf (handle_order_status_change db m).1 i).2 }) ∧
    (∀ (db : Db) (m : ShipOrderData) (i : Nat) (o : Order),
      decode m.orderId = some i →
      db.orders.find? (fun o2 => o2.pk == i) = some o →
      (handle_ship_order db m).2 = none ∧
      TemporalMergeStep
        { events := entityEventsFor db.statusEvents i,
          current := o.logistics_center_status,
          currentTs := o.logistics_center_status_ts } m.status m.shippedDate
        { events := entityEventsFor (handle_ship_order db m).1.statusEvents i,
          current := (currentOf (handle_ship_order db m).1 i).1,
          currentTs := (currentOf (handle_ship_order db m).1 i).2 }) := by
  constructor
  · intro db m i o hdec hfind
    have hpk : o.pk = i := by
      have := List.find?_some hfind
      simpa using this
    have hred : handle_order_status_change db m =
        (applyOrderStatus db o m.toStatus m.statusDate, none) := by
      unfold handle_order_status_change
      simp only [hdec, hfind]
    rw [hred]
    exact ⟨rfl, applyOrderStatus_temporal_merge db o m.toStatus m.statusDate i
      hpk hfind⟩
  · intro db m i o hdec hfind
    have hpk : o.pk = i := by
      have := List.find?_some hfind
      simpa using this
    have hred : handle_ship_order db m =
        (applyOrderStatus db o m.status m.shippedDate, none) := by
      unfold handle_ship_order
      simp only [hdec, hfind]
    rw [hred]
    exact ⟨rfl, applyOrderStatus_temporal_merge db o m.status m.shippedDate i
      hpk hfind⟩

/-- C1 witness: the concrete fixtures discharge both resolution hypotheses,
once through the order-status-change path and once through the ship-order
path. -/
theorem claim_C1_temporal_merge_rule_witness :
    decode sampleOscMsg.orderId = some 1 ∧
    decode sampleShipMsg.orderId = some 1 ∧
    sampleDb.orders.find? (fun o2 => o2.pk == 1) = some sampleOrderHome ∧
    ((handle_order_status_change sampleDb sampleOscMsg).2 = none ∧
      TemporalMergeStep
        { events := entityEventsFor sampleDb.statusEvents 1,
          current := sampleOrderHome.logistics_center_status,
          currentTs := sampleOrderHome.logistics_center_status_ts }
        sampleOscMsg.toStatus sampleOscMsg.statusDate
        { events :=
            entityEventsFor
              (handle_order_status_change sampleDb sampleOscMsg).1.statusEvents 1,
          current :=
            (currentOf (handle_order_status_change sampleDb sampleOscMsg).1 1).1,
          currentTs :=
            (currentOf (handle_order_status_change sampleDb sampleOscMsg).1 1).2 }) ∧
    ((handle_ship_order sampleDb sampleShipMsg).2 = none ∧
      TemporalMergeStep
        { events := entityEventsFor sampleDb.statusEvents 1,
          current := sampleOrderHome.logistics_center_status,
          currentTs := sampleOrderHome.logistics_center_status_ts }
        sampleShipMsg.status sampleShipMsg.shippedDate
        { events :=
            entityEventsFor (handle_ship_order sampleDb sampleShipMsg).1.statusEvents 1,
          current := (currentOf (handle_ship_order sampleDb sampleShipMsg).1 1).1,
          currentTs :=
            (currentOf (handle_ship_order sampleDb sampleShipMsg).1 1).2 }) := by
  refine ⟨by decide, by decide, by decide, ?_, ?_⟩
  · exact claim_C1_temporal_merge_rule.1 sampleDb sampleOscMsg 1 sampleOrderHome
      (by decide) (by decide)
  · exact claim_C1_temporal_merge_rule.2 sampleDb sampleShipMsg 1 sampleOrderHome
      (by decide) (by decide)

/- Section: upsert lemmas -/

theorem find?_append_singleton {α : Type} (p : α → Bool) (ls : List α) (v : α)
    (h : ∀ l ∈ ls, p l = false) (pv : p v = true) :
    (ls ++ [v]).find? p = some v := by
  induction ls with
  | nil =>
    show ([v] : List α).find? p = some v
    apply List.find?_cons_of_pos
    exact pv
  | cons a l ih =>
    have ha : p a = false := h a (by simp)
    show (a :: (l ++ [v])).find? p = some v
    rw [List.find?_cons_of_neg _ (by simp [ha])]
    exact ih fun x hx => h x (by simp [hx])

theorem find?_append_right_none {α : Type} (p : α → Bool) (ls : List α) (v : α)
    (hqv : p v = false) :
    (ls ++ [v]).find? p = ls.find? p := by
  induction ls with
  | nil =>
    show ([v] : List α).find? p = none
    rw [List.find?_cons_of_neg _ (by simp [hqv])]
    rfl
  | cons a l ih =>
    cases ha : p a with
    | true =>
      show (a :: (l ++ [v])).find? p = (a :: l).find? p
      rw [List.find?_cons_of_pos _ ha, List.find?_cons_of_pos _ ha]
    | false =>
      show (a :: (l ++ [v])).find? p = (a :: l).find? p
      rw [List.find?_cons_of_neg _ (by simp [ha]),
          List.find?_cons_of_neg _ (by simp [ha])]
      exact ih

theorem find?_map_replace {α : Type} (p : α → Bool) (g : α → α) (v : α)
    (ls : List α) (hv : p v = true) (hg : ∀ l, p l = true → g l = v)
    (hg2 : ∀ l, p l = false → g l = l) (hany : ls.any p = true) :
    (ls.map g).find? p = some v := by
  induction ls with
  | nil => cases hany
  | cons a l ih =>
    cases ha : p a with
    | true =>
      show (g a :: l.map g).find? p = some v
      rw [hg a ha]
      rw [List.find?_cons_of_pos _ hv]
    | false =>
      show (g a :: l.map g).find? p = some v
      rw [hg2 a ha]
      rw [List.find?_cons_of_neg _ (by simp [ha])]
      apply ih
      simpa [ha] using hany

theorem find?_map_congr {α : Type} (q : α → Bool) (g : α → α) (ls : List α)
    (h : ∀ l ∈ ls, q (g l) = q l ∧ (q l = true → g l = l)) :
    (ls.map g).find? q = ls.find? q := by
  induction ls with
  | nil => rfl
  | cons a l ih =>
    obtain ⟨hq, hid⟩ := h a (by simp)
    cases hqa : q a with
    | true =>
      show (g a :: l.map g).find? q = (a :: l).find? q
      rw [List.find?_cons_of_pos _ (by rw [hq, hqa]), List.find?_cons_of_pos _ hqa,
          hid hqa]
    | false =>
      show (g a :: l.map g).find? q = (a :: l).find? q
      rw [List.find?_cons_of_neg _ (by simp [hq, hqa]),
          List.find?_cons_of_neg _ (by simp [hqa])]
      exact ih fun x hx => h x (by simp [hx])

theorem length_filter_map_congr {α : Type} (q : α → Bool) (g : α → α)
    (ls : List α) (h : ∀ l ∈ ls, q (g l) = q l) :
    ((ls.map g).filter q).length = (ls.filter q).length := by
  induction ls with
  | nil => rfl
  | cons a l ih =>
    have hq := h a (by simp)
    have ihl := ih fun x hx => h x (by simp [hx])
    cases hqa : q a with
    | true =>
      show ((g a :: l.map g).filter q).length = ((a :: l).filter q).length
      rw [List.filter_cons, List.filter_cons, hq, hqa]
      simp [ihl]
    | false =>
      show ((g a :: l.map g).filter q).length = ((a :: l).filter q).length
      rw [List.filter_cons, List.filter_cons, hq, hqa]
      simpa using ihl

theorem any_eq_false_forall {α : Type} (p : α → Bool) (ls : List α)
    (h : ls.any p = false) : ∀ l ∈ ls, p l = false := by
  intro l hl
  cases hp : p l with
  | false => rfl
  | true =>
    exfalso
    have htrue : ls.any p = true := List.any_eq_true.mpr ⟨l, hl, hp⟩
    rw [h] at htrue
    cases htrue

theorem keyCount_pos_of_any {α : Type} (p : α → Bool) (ls : List α)
    (h : ls.any p = true) : (ls.filter p).length ≠ 0 := by
  rcases List.any_eq_true.mp h with ⟨x, hx, hpx⟩
  have : x ∈ ls.filter p := List.mem_filter.mpr ⟨hx, hpx⟩
  intro hlen
  rw [List.length_eq_zero] at hlen
  rw [hlen] at this
  cases this

theorem lineFor_upsert (ls : List InboundReceiptLine) (code : String) (ln : Nat)
    (v : InboundReceiptLine) (hc : v.receiptCode = code)
    (hl : v.receipt_line = ln) (c : String) (n : Nat) :
    lineFor (upsertReceiptLine ls code ln v) c n =
      (if c = code ∧ n = ln then some v else lineFor ls c n) := by
  have pv : (v.receiptCode == code && v.receipt_line == ln) = true := by
    simp [hc, hl]
  by_cases hkey : c = code ∧ n = ln
  · obtain ⟨rfl, rfl⟩ := hkey
    rw [if_pos ⟨rfl, rfl⟩]
    unfold upsertReceiptLine lineFor
    cases hany : ls.any fun l => l.receiptCode == c && l.receipt_line == n with
    | true =>
      rw [if_pos rfl]
      exact find?_map_replace _ _ v ls pv (fun l hp => by rw [if_pos hp])
        (fun l hp => by rw [if_neg (by simp [hp])]) hany
    | false =>
      rw [if_neg (by simp)]
      exact find?_append_singleton _ ls v (any_eq_false_forall _ ls hany) pv
  · have hdiff : ∀ l : InboundReceiptLine,
        (l.receiptCode == code && l.receipt_line == ln) = true →
        (l.receiptCode == c && l.receipt_line == n) = false := by
      intro l hm
      simp only [Bool.and_eq_true, beq_iff_eq] at hm
      cases hb : (l.receiptCode == c && l.receipt_line == n) with
      | false => rfl
      | true =>
        exfalso
        simp only [Bool.and_eq_true, beq_iff_eq] at hb
        exact hkey ⟨by rw [← hb.1, hm.1], by rw [← hb.2, hm.2]⟩
    rw [if_neg hkey]
    unfold upsertReceiptLine lineFor
    cases hany : ls.any fun l => l.receiptCode == code && l.receipt_line == ln with
    | true =>
      rw [if_pos rfl]
      apply find?_map_congr
      intro l _
      by_cases hp : (l.receiptCode == code && l.receipt_line == ln) = true
      · constructor
        · rw [if_pos hp, hdiff v pv, hdiff l hp]
        · intro hql
          rw [hdiff l hp] at hql
          cases hql
      · constructor
        · rw [if_neg hp]
        · intro _
          rw [if_neg hp]
    | false =>
      rw [if_neg (by simp)]
      exact find?_append_right_none _ ls v (hdiff v pv)

theorem keyCount_upsert (ls : List InboundReceiptLine) (code : String) (ln : Nat)
    (v : InboundReceiptLine) (hc : v.receiptCode = code)
    (hl : v.receipt_line = ln) (c : String) (n : Nat) :
    keyCount (upsertReceiptLine ls code ln v) c n =
      (if c = code ∧ n = ln then
        (if keyCount ls code ln = 0 then 1 else keyCount ls code ln)
       else keyCount ls c n) := by
  have pv : (v.receiptCode == code && v.receipt_line == ln) = true := by
    simp [hc, hl]
  by_cases hkey : c = code ∧ n = ln
  · obtain ⟨rfl, rfl⟩ := hkey
    rw [if_pos ⟨rfl, rfl⟩]
    unfold upsertReceiptLine keyCount
    cases hany : ls.any fun l => l.receiptCode == c && l.receipt_line == n with
    | true =>
      rw [if_pos rfl]
      rw [if_neg (keyCount_pos_of_any _ ls hany)]
      apply length_filter_map_congr
      intro l _
      by_cases hp : (l.receiptCode == c && l.receipt_line == n) = true
      · rw [if_pos hp, pv, hp]
      · rw [if_neg hp]
    | false =>
      rw [if_neg (by simp)]
      have hz : (ls.filter fun l => l.receiptCode == c && l.receipt_line == n) = [] :=
        List.filter_eq_nil_iff.mpr fun a ha => by
          simp [any_eq_false_forall _ ls hany a ha]
      rw [List.filter_append, hz, if_pos (by simp [hz])]
      simp [pv]
  · have hdiff : ∀ l : InboundReceiptLine,
        (l.receiptCode == code && l.receipt_line == ln) = true →
        (l.receiptCode == c && l.receipt_line == n) = false := by
      intro l hm
      simp only [Bool.and_eq_true, beq_iff_eq] at hm
      cases hb : (l.receiptCode == c && l.receipt_line == n) with
      | false => rfl
      | true =>
        exfalso
        simp only [Bool.and_eq_true, beq_iff_eq] at hb
        exact hkey ⟨by rw [← hb.1, hm.1], by rw [← hb.2, hm.2]⟩
    rw [if_neg hkey]
    unfold upsertReceiptLine keyCount
    cases hany : ls.any fun l => l.receiptCode == code && l.receipt_line == ln with
    | true =>
      rw [if_pos rfl]
      apply length_filter_map_congr
      intro l _
      by_cases hp : (l.receiptCode == code && l.receipt_line == ln) = true
      · rw [if_pos hp, hdiff v pv, hdiff l hp]
      · rw [if_neg hp]
    | false =>
      rw [if_neg (by simp)]
      rw [List.filter_append]
      have : ([v].filter fun l => l.receiptCode == c && l.receipt_line == n) = [] := by
        simp [List.filter_cons, hdiff v pv]
      rw [this]
      simp

theorem receiptFor_upsert (rs : List InboundReceipt) (code : String)
    (sd cd : Nat) :
    receiptFor (upsertReceipt rs code sd cd) code =
      some { receipt_code := code, receipt_start_date := sd,
             receipt_close_date := cd } := by
  have pv : ((InboundReceipt.mk code sd cd).receipt_code == code) = true := by
    simp
  unfold upsertReceipt receiptFor
  cases hany : rs.any fun r => r.receipt_code == code with
  | true =>
    rw [if_pos rfl]
    apply find?_map_replace _ _ (InboundReceipt.mk code sd cd) rs pv
    · intro r hp
      obtain ⟨a, b, c2⟩ := r
      have hrc : a = code := by simpa using hp
      rw [if_pos hp]
      simp [hrc]
    · intro r hp
      rw [if_neg (by simp [hp])]
    · exact hany
  | false =>
    rw [if_neg (by simp)]
    exact find?_append_singleton _ rs _ (any_eq_false_forall _ rs hany) pv

theorem receiptCount_upsert (rs : List InboundReceipt) (code : String)
    (sd cd : Nat) :
    receiptCount (upsertReceipt rs code sd cd) code =
      (if receiptCount rs code = 0 then 1 else receiptCount rs code) := by
  unfold upsertReceipt receiptCount
  cases hany : rs.any fun r => r.receipt_code == code with
  | true =>
    rw [if_pos rfl]
    rw [if_neg (keyCount_pos_of_any _ rs hany)]
    apply length_filter_map_congr
    intro r _
    by_cases hp : (r.receipt_code == code) = true
    · rw [if_pos hp]
    · rw [if_neg hp]
  | false =>
    rw [if_neg (by simp)]
    have hz : (rs.filter fun r => r.receipt_code == code) = [] :=
      List.filter_eq_nil_iff.mpr fun a ha => by
        simp [any_eq_false_forall _ rs hany a ha]
    rw [List.filter_append, hz, if_pos (by simp [hz])]
    simp

/- Section: receipt line fold lemmas -/

theorem keyCount_upsert_le (acc : List InboundReceiptLine) (code : String)
    (ln : Nat) (v : InboundReceiptLine) (hc : v.receiptCode = code)
    (hl : v.receipt_line = ln) (hinv : ∀ n, keyCount acc code n ≤ 1) :
    ∀ n, keyCount (upsertReceiptLine acc code ln v) code n ≤ 1 := by
  intro n
  rw [keyCount_upsert acc code ln v hc hl code n]
  have h1 := hinv ln
  have h2 := hinv n
  split
  · split
    · omega
    · omega
  · exact h2

theorem processReceiptLines_ok (ref : Nat) (code : String)
    (pos : List PurchaseOrderProduct) (ms : List ReceiptLineData) :
    ∀ acc, (∀ l ∈ ms, lineResolves pos l) →
      (processReceiptLines ref code pos ms acc).2 = none := by
  induction ms with
  | nil =>
    intro acc _
    rfl
  | cons m rest ih =>
    intro acc hres
    obtain ⟨i, hdec, hfind⟩ := hres m (by simp)
    obtain ⟨p, hp⟩ := Option.isSome_iff_exists.mp hfind
    simp only [processReceiptLines, hdec, hp]
    exact ih _ fun x hx => hres x (by simp [hx])

theorem processReceiptLines_other (ref : Nat) (code : String)
    (pos : List PurchaseOrderProduct) (ms : List ReceiptLineData) :
    ∀ acc c n, (∀ l ∈ ms, ¬(c = code ∧ n = l.receiptLine)) →
      lineFor (processReceiptLines ref code pos ms acc).1 c n =
        lineFor acc c n ∧
      keyCount (processReceiptLines ref code pos ms acc).1 c n =
        keyCount acc c n := by
  induction ms with
  | nil =>
    intro acc c n _
    exact ⟨rfl, rfl⟩
  | cons m rest ih =>
    intro acc c n hk
    cases hdec : decode m.orderId with
    | none =>
      simp only [processReceiptLines, hdec]
      exact ⟨by simp, by simp⟩
    | some i =>
      cases hfind : pos.find? fun p =>
          p.purchaseOrderPk == i && p.productSku == m.sku with
      | none =>
        simp only [processReceiptLines, hdec, hfind]
        exact ⟨by simp, by simp⟩
      | some p =>
        simp only [processReceiptLines, hdec, hfind]
        have hrec := ih (upsertReceiptLine acc code m.receiptLine
          (InboundReceiptLine.mk code m.receiptLine i m.sku m.qtyReceived ref))
          c n fun x hx => hk x (by simp [hx])
        have hkm : ¬(c = code ∧ n = m.receiptLine) := hk m (by simp)
        constructor
        · rw [hrec.1, lineFor_upsert acc code m.receiptLine _ rfl rfl c n,
              if_neg hkm]
        · rw [hrec.2, keyCount_upsert acc code m.receiptLine _ rfl rfl c n,
              if_neg hkm]

theorem processReceiptLines_count_le (ref : Nat) (code : String)
    (pos : List PurchaseOrderProduct) (ms : List ReceiptLineData) :
    ∀ acc, (∀ n, keyCount acc code n ≤ 1) →
      ∀ n, keyCount (processReceiptLines ref code pos ms acc).1 code n ≤ 1 := by
  induction ms with
  | nil =>
    intro acc h n
    exact h n
  | cons m rest ih =>
    intro acc h n
    cases hdec : decode m.orderId with
    | none =>
      simp only [processReceiptLines, hdec]
      exact h n
    | some i =>
      cases hfind : pos.find? fun p =>
          p.purchaseOrderPk == i && p.productSku == m.sku with
      | none =>
        simp only [processReceiptLines, hdec, hfind]
        exact h n
      | some p =>
        simp only [processReceiptLines, hdec, hfind]
        exact ih _ (keyCount_upsert_le acc code m.receiptLine _ rfl rfl h) n

theorem processReceiptLines_mem (ref : Nat) (code : String)
    (pos : List PurchaseOrderProduct) (ms : List ReceiptLineData) :
    ∀ acc, (∀ l ∈ ms, lineResolves pos l) →
      (ms.map fun l => l.receiptLine).Nodup →
      (∀ n, keyCount acc code n ≤ 1) →
      ∀ l ∈ ms, ∀ i, decode l.orderId = some i →
        lineFor (processReceiptLines ref code pos ms acc).1 code l.receiptLine =
          some (InboundReceiptLine.mk code l.receiptLine i l.sku
            l.qtyReceived ref) ∧
        keyCount (processReceiptLines ref code pos ms acc).1 code
          l.receiptLine = 1 := by
  induction ms with
  | nil =>
    intro acc _ _ _ l hl
    cases hl
  | cons m rest ih =>
    intro acc hres hnodup hinv l hl i hdec
    obtain ⟨i0, hdec0, hfind0⟩ := hres m (by simp)
    obtain ⟨p0, hp0⟩ := Option.isSome_iff_exists.mp hfind0
    rcases List.mem_cons.mp hl with rfl | hl2
    · have hii : i = i0 := by
        rw [hdec] at hdec0
        exact Option.some.inj hdec0
      subst hii
      simp only [processReceiptLines, hdec0, hp0]
      have hnotin : ∀ l2 ∈ rest, ¬(code = code ∧ l.receiptLine = l2.receiptLine) := by
        intro l2 hl2 hcontra
        have hmem : l.receiptLine ∈ rest.map fun l3 => l3.receiptLine :=
          List.mem_map.mpr ⟨l2, hl2, hcontra.2.symm⟩
        have hhead := (List.nodup_cons.mp hnodup).1
        exact hhead hmem
      have hother := processReceiptLines_other ref code pos rest
        (upsertReceiptLine acc code l.receiptLine
          (InboundReceiptLine.mk code l.receiptLine i l.sku l.qtyReceived ref))
        code l.receiptLine hnotin
      constructor
      · rw [hother.1,
            lineFor_upsert acc code l.receiptLine _ rfl rfl code l.receiptLine,
            if_pos ⟨rfl, rfl⟩]
      · rw [hother.2,
            keyCount_upsert acc code l.receiptLine _ rfl rfl code l.receiptLine,
            if_pos ⟨rfl, rfl⟩]
        have := hinv l.receiptLine
        split
        · rfl
        · omega
    · simp only [processReceiptLines, hdec0, hp0]
      exact ih _ (fun x hx => hres x (by simp [hx]))
        ((List.nodup_cons.mp hnodup).2)
        (keyCount_upsert_le acc code m.receiptLine _ rfl rfl hinv)
        l hl2 i hdec

theorem processReceiptLines_fails (ref : Nat) (code : String)
    (pos : List PurchaseOrderProduct) (pre : List ReceiptLineData) :
    ∀ (l : ReceiptLineData) (post : List ReceiptLineData)
      (acc : List InboundReceiptLine) (i : Nat),
      (∀ p ∈ pre, lineResolves pos p) →
      decode l.orderId = some i →
      (pos.find? fun p => p.purchaseOrderPk == i && p.productSku == l.sku) = none →
      keyCount acc code l.receiptLine = 0 →
      (∀ p ∈ pre, p.receiptLine ≠ l.receiptLine) →
      (processReceiptLines ref code pos (pre ++ l :: post) acc).2 =
        some ProcError.referenceNotFound ∧
      keyCount (processReceiptLines ref code pos (pre ++ l :: post) acc).1 code
        l.receiptLine = 0 := by
  induction pre with
  | nil =>
    intro l post acc i hres hdec hfind hkey hne
    simp only [List.nil_append, processReceiptLines, hdec, hfind]
    exact ⟨by simp, hkey⟩
  | cons p0 pre' ih =>
    intro l post acc i hres hdec hfind hkey hne
    obtain ⟨i0, hdec0, hfind0⟩ := hres p0 (by simp)
    obtain ⟨pp, hpp⟩ := Option.isSome_iff_exists.mp hfind0
    simp only [List.cons_append, processReceiptLines, hdec0, hpp]
    apply ih l post _ i (fun x hx => hres x (by simp [hx])) hdec hfind ?_
      (fun x hx => hne x (by simp [hx]))
    rw [keyCount_upsert acc code p0.receiptLine _ rfl rfl code l.receiptLine,
        if_neg (fun hcontra => hne p0 (by simp) hcontra.2.symm)]
    exact hkey

/-- C2: processing a second INBOUND_RECEIPT message with the same receipt code
yields exactly one stored receipt, with the header dates overwritten by the
second message, and exactly one receipt line per reported line number: lines
reported by the second message carry its quantities and raw-message
back-reference, and lines reported only by the first keep a single stored
row. -/
theorem claim_C2_receipt_upsert_idempotence :
    ∀ (db : Db) (ref1 ref2 : Nat) (m1 m2 : ReceiptData),
      m1.receipt = m2.receipt →
      receiptCount db.receipts m2.receipt = 0 →
      (∀ n, keyCount db.receiptLines m2.receipt n = 0) →
      (∀ l ∈ m1.lines, lineResolves db.purchaseOrderProducts l) →
      (∀ l ∈ m2.lines, lineResolves db.purchaseOrderProducts l) →
      (m1.lines.map fun l => l.receiptLine).Nodup →
      (m2.lines.map fun l => l.receiptLine).Nodup →
      (process_inbound_receipt db ref1 m1).2 = none ∧
      (process_inbound_receipt (process_inbound_receipt db ref1 m1).1
        ref2 m2).2 = none ∧
      receiptCount (process_inbound_receipt (process_inbound_receipt db ref1 m1).1
        ref2 m2).1.receipts m2.receipt = 1 ∧
      receiptFor (process_inbound_receipt (process_inbound_receipt db ref1 m1).1
        ref2 m2).1.receipts m2.receipt =
        some (InboundReceipt.mk m2.receipt m2.startDate m2.closeDate) ∧
      (∀ l ∈ m2.lines, ∀ i, decode l.orderId = some i →
        keyCount (process_inbound_receipt (process_inbound_receipt db ref1 m1).1
          ref2 m2).1.receiptLines m2.receipt l.receiptLine = 1 ∧
        lineFor (process_inbound_receipt (process_inbound_receipt db ref1 m1).1
          ref2 m2).1.receiptLines m2.receipt l.receiptLine =
          some (InboundReceiptLine.mk m2.receipt l.receiptLine i l.sku
            l.qtyReceived ref2)) ∧
      (∀ l ∈ m1.lines, l.receiptLine ∉ (m2.lines.map fun l2 => l2.receiptLine) →
        keyCount (process_inbound_receipt (process_inbound_receipt db ref1 m1).1
          ref2 m2).1.receiptLines m2.receipt l.receiptLine = 1) := by
  intro db ref1 ref2 m1 m2 hcode h0r h0l hres1 hres2 hnd1 hnd2
  have hp1 : (process_inbound_receipt db ref1 m1).1.purchaseOrderProducts =
      db.purchaseOrderProducts := rfl
  have hr1 : (process_inbound_receipt db ref1 m1).1.receipts =
      upsertReceipt db.receipts m1.receipt m1.startDate m1.closeDate := rfl
  have hl1 : (process_inbound_receipt db ref1 m1).1.receiptLines =
      (processReceiptLines ref1 m1.receipt db.purchaseOrderProducts m1.lines
        db.receiptLines).1 := rfl
  have he1 : (process_inbound_receipt db ref1 m1).2 =
      (processReceiptLines ref1 m1.receipt db.purchaseOrderProducts m1.lines
        db.receiptLines).2 := rfl
  have hr2 : (process_inbound_receipt (process_inbound_receipt db ref1 m1).1
      ref2 m2).1.receipts =
      upsertReceipt (process_inbound_receipt db ref1 m1).1.receipts m2.receipt
        m2.startDate m2.closeDate := rfl
  have hl2 : (process_inbound_receipt (process_inbound_receipt db ref1 m1).1
      ref2 m2).1.receiptLines =
      (processReceiptLines ref2 m2.receipt
        (process_inbound_receipt db ref1 m1).1.purchaseOrderProducts m2.lines
        (process_inbound_receipt db ref1 m1).1.receiptLines).1 := rfl
  have he2 : (process_inbound_receipt (process_inbound_receipt db ref1 m1).1
      ref2 m2).2 =
      (processReceiptLines ref2 m2.receipt
        (process_inbound_receipt db ref1 m1).1.purchaseOrderProducts m2.lines
        (process_inbound_receipt db ref1 m1).1.receiptLines).2 := rfl
  have hres2b : ∀ l ∈ m2.lines,
      lineResolves (process_inbound_receipt db ref1 m1).1.purchaseOrderProducts l :=
    hres2
  have hinv0 : ∀ n, keyCount db.receiptLines m1.receipt n ≤ 1 := by
    intro n
    rw [hcode, h0l n]
    omega
  have hinv1 : ∀ n,
      keyCount (process_inbound_receipt db ref1 m1).1.receiptLines
        m2.receipt n ≤ 1 := by
    intro n
    rw [hl1, ← hcode]
    exact processReceiptLines_count_le ref1 m1.receipt db.purchaseOrderProducts
      m1.lines db.receiptLines hinv0 n
  refine ⟨?_, ?_, ?_, ?_, ?_, ?_⟩
  · rw [he1]
    exact processReceiptLines_ok ref1 m1.receipt db.purchaseOrderProducts
      m1.lines db.receiptLines hres1
  · rw [he2]
    exact processReceiptLines_ok ref2 m2.receipt _ m2.lines _ hres2b
  · rw [hr2, hr1, hcode, receiptCount_upsert, receiptCount_upsert, h0r]
    simp
  · rw [hr2]
    exact receiptFor_upsert _ m2.receipt m2.startDate m2.closeDate
  · intro l hl i hdec
    have h := processReceiptLines_mem ref2 m2.receipt
      (process_inbound_receipt db ref1 m1).1.purchaseOrderProducts m2.lines
      (process_inbound_receipt db ref1 m1).1.receiptLines hres2b hnd2 hinv1
      l hl i hdec
    rw [hl2]
    exact ⟨h.2, h.1⟩
  · intro l hl hnot
    have hk : ∀ x ∈ m2.lines, ¬(m2.receipt = m2.receipt ∧
        l.receiptLine = x.receiptLine) := by
      intro x hx hcontra
      exact hnot (List.mem_map.mpr ⟨x, hx, hcontra.2.symm⟩)
    have hother := processReceiptLines_other ref2 m2.receipt
      (process_inbound_receipt db ref1 m1).1.purchaseOrderProducts m2.lines
      (process_inbound_receipt db ref1 m1).1.receiptLines m2.receipt
      l.receiptLine hk
    obtain ⟨i1, hdec1, _⟩ := hres1 l hl
    have hmem1 := processReceiptLines_mem ref1 m1.receipt
      db.purchaseOrderProducts m1.lines db.receiptLines hres1 hnd1 hinv0
      l hl i1 hdec1
    rw [hl2, hother.2, hl1, ← hcode]
    exact hmem1.2

/-- C2 witness: the two fixture receipt messages for the same code applied to
the fresh fixture state; the line for line number 1 ends with the second
message's quantity and back-reference, and the header carries the second
message's dates. -/
theorem claim_C2_receipt_upsert_idempotence_witness :
    receiptMsg1.receipt = receiptMsg2.receipt ∧
    receiptCount sampleDb.receipts receiptMsg2.receipt = 0 ∧
    (process_inbound_receipt sampleDb 101 receiptMsg1).2 = none ∧
    (process_inbound_receipt (process_inbound_receipt sampleDb 101
      receiptMsg1).1 102 receiptMsg2).2 = none ∧
    receiptCount (process_inbound_receipt (process_inbound_receipt sampleDb 101
      receiptMsg1).1 102 receiptMsg2).1.receipts receiptMsg2.receipt = 1 ∧
    receiptFor (process_inbound_receipt (process_inbound_receipt sampleDb 101
      receiptMsg1).1 102 receiptMsg2).1.receipts receiptMsg2.receipt =
      some (InboundReceipt.mk "CODE4" 200 200) ∧
    lineFor (process_inbound_receipt (process_inbound_receipt sampleDb 101
      receiptMsg1).1 102 receiptMsg2).1.receiptLines receiptMsg2.receipt 1 =
      some (InboundReceiptLine.mk "CODE4" 1 5 "1" 30 102) := by
  have hres1 : ∀ l ∈ receiptMsg1.lines,
      lineResolves sampleDb.purchaseOrderProducts l := by
    intro l hl
    simp only [receiptMsg1, List.mem_cons, List.not_mem_nil, or_false] at hl
    rcases hl with rfl | rfl
    · exact ⟨5, by decide, by decide⟩
    · exact ⟨5, by decide, by decide⟩
  have hres2 : ∀ l ∈ receiptMsg2.lines,
      lineResolves sampleDb.purchaseOrderProducts l := by
    intro l hl
    simp only [receiptMsg2, List.mem_cons, List.not_mem_nil, or_false] at hl
    rcases hl with rfl | rfl
    · exact ⟨5, by decide, by decide⟩
    · exact ⟨5, by decide, by decide⟩
  have h := claim_C2_receipt_upsert_idempotence sampleDb 101 102 receiptMsg1
    receiptMsg2 rfl rfl (fun _ => rfl) hres1 hres2 (by decide) (by decide)
  refine ⟨rfl, rfl, h.1, h.2.1, h.2.2.1, h.2.2.2.1, ?_⟩
  exact (h.2.2.2.2.1 (ReceiptLineData.mk 1 "1" (encode 5) 30) (by simp [receiptMsg2])
    5 (by decide)).2

/-- C7: an INBOUND_RECEIPT message whose first unresolved line references a
purchase-order/SKU pair unknown to the platform fails with the hard
ReferenceNotFound error and creates no receipt line for that line. -/
theorem claim_C7_reference_not_found :
    ∀ (db : Db) (ref : Nat) (m : ReceiptData) (pre post : List ReceiptLineData)
      (l : ReceiptLineData) (i : Nat),
      m.lines = pre ++ l :: post →
      (∀ p ∈ pre, lineResolves db.purchaseOrderProducts p) →
      decode l.orderId = some i →
      (db.purchaseOrderProducts.find? fun p =>
        p.purchaseOrderPk == i && p.productSku == l.sku) = none →
      keyCount db.receiptLines m.receipt l.receiptLine = 0 →
      (∀ p ∈ pre, p.receiptLine ≠ l.receiptLine) →
      (process_inbound_receipt db ref m).2 =
        some ProcError.referenceNotFound ∧
      keyCount (process_inbound_receipt db ref m).1.receiptLines m.receipt
        l.receiptLine = 0 := by
  intro db ref m pre post l i hsplit hres hdec hfind hkey hne
  have he : (process_inbound_receipt db ref m).2 =
      (processReceiptLines ref m.receipt db.purchaseOrderProducts m.lines
        db.receiptLines).2 := rfl
  have hl : (process_inbound_receipt db ref m).1.receiptLines =
      (processReceiptLines ref m.receipt db.purchaseOrderProducts m.lines
        db.receiptLines).1 := rfl
  rw [he, hl, hsplit]
  exact processReceiptLines_fails ref m.receipt db.purchaseOrderProducts pre
    l post db.receiptLines i hres hdec hfind hkey hne

/-- C7 witness: the fixture receipt referencing the non-existent purchase
order 0 fails with ReferenceNotFound and stores no line. -/
theorem claim_C7_reference_not_found_witness :
    receiptMsgBad.lines = [] ++ ReceiptLineData.mk 1 "0" (encode 0) 1 :: [] ∧
    decode (ReceiptLineData.mk 1 "0" (encode 0) 1).orderId = some 0 ∧
    (sampleDb.purchaseOrderProducts.find? fun p =>
      p.purchaseOrderPk == 0 && p.productSku == "0") = none ∧
    (process_inbound_receipt sampleDb 103 receiptMsgBad).2 =
      some ProcError.referenceNotFound ∧
    keyCount (process_inbound_receipt sampleDb 103
      receiptMsgBad).1.receiptLines receiptMsgBad.receipt 1 = 0 := by
  have h := claim_C7_reference_not_found sampleDb 103 receiptMsgBad [] []
    (ReceiptLineData.mk 1 "0" (encode 0) 1) 0 rfl
    (fun p hp => absurd hp (List.not_mem_nil p)) (by decide) (by decide) rfl
    (fun p hp => absurd hp (List.not_mem_nil p))
  exact ⟨rfl, by decide, by decide, h.1, h.2⟩

end NpBackend
